import Mathlib

/-!
# example-go: bootstrap runner, shutdown coordinator, CreateLoop stage, sample data

A shallow embedding of

* `internal/bootstrap/bootstrap.go` (`Run`, `initWaitGroup`, `translateInterruptToCancel`),
* `internal/handlers/create_loop.go` (`CreateLoop.BootstrapHandler` and its two goroutines),
* `internal/models/sample.go` (`NewSampleData`, `factoryRandomFixedLengthString`),

followed by the properties established about them.

Sequential code is embedded as state-passing functions that also record the calls
they make; goroutines are embedded as program-counter machines that are interleaved
by an explicit schedule.
-/

set_option autoImplicit false
set_option linter.unusedTactic false
set_option linter.unreachableTactic false
set_option linter.unnecessarySeqFocus false
set_option linter.unnecessarySimpa false

namespace Bootstrap

/-! ## Part 1. `bootstrap.go`: the calling goroutine -/

/-- Calls made, in program order, by the goroutine that executes `Run` / `initWaitGroup`.
`κ` is the type of context values and `ω` the type of `*sync.WaitGroup` pointers. -/
inductive Call (κ ω : Type) where
  /-- Line 51: `translateInterruptToCancel(ctx, &wg, cancel)`. -/
  | translateInterruptToCancel (ctx : κ) (wg : ω)
  /-- Line 53: `handlers[i](ctx, &wg)`. -/
  | handler (i : Nat) (ctx : κ) (wg : ω)
  /-- Line 54: `cancel()`. -/
  | cancel
  /-- Line 38: `wg.Wait()`. -/
  | wait (wg : ω)
  deriving DecidableEq

/-- Modelled from the spec: the declaration of the `BootstrapHandler` type is not among the
sources; the spec gives its shape as `(context, *JoinGroup) -> bool` and `initWaitGroup`
uses it as `handlers[i](ctx, &wg) == false`.  A handler is an arbitrary function of the
context, the wait-group pointer and the world `σ` it runs in; it returns its boolean and
the world it leaves behind. -/
abbrev BootstrapHandler (κ ω σ : Type) := κ → ω → σ → Bool × σ

/-- What the calling goroutine has done so far: the world it acts on and its call record
(oldest call first). -/
structure Runner (κ ω σ : Type) where
  world : σ
  calls : List (Call κ ω)

/-- The primitive effects `translateInterruptToCancel` has on the world: `wg.Add(1)` on the
wait group it is given, and the `go` statement that starts the listener closure over
`ctx`, `wg` and `cancel`. -/
structure GoRuntime (κ ω σ : Type) where
  wgAdd : ω → Int → σ → σ
  goListener : κ → ω → σ → σ

variable {κ ω σ : Type}

/-- Lines 65-85, as seen from the caller: `wg.Add(1)` and then `go func() {...}()`.
The body of the goroutine is the listener machine of Part 3. -/
def translateInterruptToCancel (rt : GoRuntime κ ω σ) (ctx : κ) (wg : ω) (w : σ) : σ :=
  rt.goListener ctx wg (rt.wgAdd wg 1 w)

/-- Lines 52-58: `for i := range handlers { if handlers[i](ctx, &wg) == false { cancel();
startedSuccessfully = false; break } }`, started at index `i` with `hs` the handlers from
index `i` on.  Returns the value `startedSuccessfully` has after the loop. -/
def handlerLoop (ctx : κ) (wg : ω) (cancel : σ → σ) :
    Nat → List (BootstrapHandler κ ω σ) → Runner κ ω σ → Bool × Runner κ ω σ
  | _, [], r => (true, r)
  | i, h :: hs, r =>
    let res := h ctx wg r.world
    let r1 : Runner κ ω σ := { world := res.2, calls := r.calls ++ [Call.handler i ctx wg] }
    if res.1 == false then
      (false, { world := cancel r1.world, calls := r1.calls ++ [Call.cancel] })
    else
      handlerLoop ctx wg cancel (i + 1) hs r1

/-- Lines 41-61.  `wg` is the address of the local `var wg sync.WaitGroup`; the result is the
pair `(&wg, startedSuccessfully)` together with the runner state. -/
def initWaitGroup (rt : GoRuntime κ ω σ) (ctx : κ) (cancel : σ → σ) (wg : ω)
    (handlers : List (BootstrapHandler κ ω σ)) (w : σ) : (ω × Bool) × Runner κ ω σ :=
  let r0 : Runner κ ω σ :=
    { world := translateInterruptToCancel rt ctx wg w
      calls := [Call.translateInterruptToCancel ctx wg] }
  let res := handlerLoop ctx wg cancel 0 handlers r0
  ((wg, res.1), res.2)

/-- Lines 30-39: `wg, _ := initWaitGroup(...)` then `wg.Wait()`.  `Run` has no result
parameters, so the value it returns is `()`.  `wg.Wait()` blocks until the counter of the
wait group is zero: `wgWait wg w` is `some w1` when the call returns, leaving the world `w1`,
and `none` when it does not return (a goroutine never calls `Done`, or a panic ends the
process first); `Run` then does not return either. -/
def Run (rt : GoRuntime κ ω σ) (wgWait : ω → σ → Option σ) (ctx : κ) (cancel : σ → σ) (wg : ω)
    (handlers : List (BootstrapHandler κ ω σ)) (w : σ) : Option (Unit × Runner κ ω σ) :=
  let res := initWaitGroup rt ctx cancel wg handlers w
  let wg1 := res.1.1
  match wgWait wg1 res.2.world with
  | none => none
  | some w1 => some ((), { world := w1, calls := res.2.calls ++ [Call.wait wg1] })

/-- World in which handler number `j` is invoked when nothing stops the loop earlier: the
handlers before it have run in list order, starting from `w`. -/
def worldBefore (ctx : κ) (wg : ω) (hs : List (BootstrapHandler κ ω σ)) (w : σ) : Nat → σ
  | 0 => w
  | j + 1 =>
    match hs with
    | [] => w
    | h :: rest => worldBefore ctx wg rest (h ctx wg w).2 j

/-- Boolean returned by handler number `j` when it is invoked in `worldBefore ... j`
(`true` past the end of the list, where there is nothing to invoke). -/
def resultAt (ctx : κ) (wg : ω) (hs : List (BootstrapHandler κ ω σ)) (w : σ) (j : Nat) : Bool :=
  match hs.get? j with
  | some h => (h ctx wg (worldBefore ctx wg hs w j)).1
  | none => true

/-- Handler `k` is the first one to return false. -/
def FirstFailure (ctx : κ) (wg : ω) (hs : List (BootstrapHandler κ ω σ)) (w : σ) (k : Nat) : Prop :=
  k < hs.length ∧ resultAt ctx wg hs w k = false ∧ ∀ j, j < k → resultAt ctx wg hs w j = true

/-- Every handler returns true. -/
def AllSucceed (ctx : κ) (wg : ω) (hs : List (BootstrapHandler κ ω σ)) (w : σ) : Prop :=
  ∀ j, j < hs.length → resultAt ctx wg hs w j = true

/-- Indices of the handlers invoked, in call order. -/
def invokedIndices (cs : List (Call κ ω)) : List Nat :=
  cs.filterMap fun c => match c with
    | Call.handler i _ _ => some i
    | _ => none

/-- Number of `cancel()` calls in a call record. -/
def cancelCount (cs : List (Call κ ω)) : Nat :=
  cs.countP fun c => match c with
    | Call.cancel => true
    | _ => false

/-- The handler calls `handlers[i](ctx, &wg)` for `i = from, ..., from + n - 1`. -/
def handlerCalls (ctx : κ) (wg : ω) (start n : Nat) : List (Call κ ω) :=
  (List.range n).map fun i => Call.handler (start + i) ctx wg

/-! ### A concrete world for evaluating the runner

The world is the list of effects performed so far, each written as a number. -/

/-- Runtime whose world records `wg.Add` as `100` and the `go` statement as `101`. -/
def demoRuntime : GoRuntime Unit Unit (List Nat) where
  wgAdd := fun _ _ w => w ++ [100]
  goListener := fun _ _ w => w ++ [101]

/-- Cancel function that records itself as `102`. -/
def demoCancel (w : List Nat) : List Nat := w ++ [102]

/-- Handler that records `tag` in the world and returns `ok`. -/
def demoHandler (tag : Nat) (ok : Bool) : BootstrapHandler Unit Unit (List Nat) :=
  fun _ _ w => (ok, w ++ [tag])

end Bootstrap

namespace Models

/-! ## Part 2. `models/sample.go` -/

/-- A Go `string` or `[]byte`: a sequence of bytes. -/
abbrev Bytes := List UInt8

/-- How a Go call ends: it returns a value or it panics. -/
inductive GoResult (α : Type) where
  | returned (a : α)
  | panicked (msg : String)
  deriving DecidableEq

/-- Line 26. -/
def alphanumericCharset : String :=
  "abcdefghijklmnopqrstuvwxyzABCDEFGHIJKLMNOPQRSTUVWXYZ0123456789"

/-- The bytes of a Go string constant (Go source text is UTF-8). -/
def goString (s : String) : Bytes := s.toUTF8.data.toList

/-- Lines 30-34. -/
structure SampleData where
  Description : Bytes
  Seed : Bytes
  Signature : Bytes
  deriving DecidableEq

/-- The zero value `SampleData{}`. -/
def SampleData.zero : SampleData := { Description := [], Seed := [], Signature := [] }

/-- The one field of `config.KeyInfo` (alvarium SDK) that `NewSampleData` reads. -/
structure KeyInfo where
  Path : String

/-- The library functions `sample.go` calls, taken as given:
`readFile` is `ioutil.ReadFile` (contents or error text);
`intn i n` is the number the package-level `seededRand` produces on its `i`-th call of `Intn`
when asked for bound `n`;
`hexDecode src` is the bytes `hex.Decode` writes to the front of its destination;
`sign` is `ed25519.Sign` on a private key of the right size;
`sprintfHex` is `fmt.Sprintf("%x", ·)`. -/
structure Libs where
  readFile : String → Except String Bytes
  intn : Nat → Nat → Nat
  hexDecode : Bytes → Bytes
  sign : Bytes → Bytes → Bytes
  sprintfHex : Bytes → Bytes

/-- The call `seededRand.Intn(n)` as call number `calls` on the source: `math/rand` panics when
`n <= 0`. -/
def Intn (intn : Nat → Nat → Nat) (calls : Nat) (n : Nat) : GoResult Nat :=
  if n = 0 then GoResult.panicked "invalid argument to Intn"
  else GoResult.returned (intn calls n)

/-- Lines 58-60: `for i := range b { b[i] = charset[seededRand.Intn(len(charset))] }`, with
`todo` iterations left, `i` the current index and `calls` the number of `Intn` calls made on
the source so far.  Indexing `charset` out of range panics. -/
def fillRandom (intn : Nat → Nat → Nat) (charset : Bytes) :
    Nat → Nat → Nat → Bytes → GoResult (Bytes × Nat)
  | 0, _, calls, b => GoResult.returned (b, calls)
  | todo + 1, i, calls, b =>
    match Intn intn calls charset.length with
    | GoResult.panicked msg => GoResult.panicked msg
    | GoResult.returned idx =>
      match charset.get? idx with
      | none => GoResult.panicked "index out of range"
      | some c => fillRandom intn charset todo (i + 1) (calls + 1) (b.set i c)

/-- Lines 56-62.  `length` is a Go `int`; `make([]byte, length)` panics when it is negative
and otherwise gives `length` zero bytes.  The result is the string and the number of `Intn`
calls made on the source after the call. -/
def factoryRandomFixedLengthString (intn : Nat → Nat → Nat) (length : Int) (charset : Bytes)
    (calls : Nat) : GoResult (Bytes × Nat) :=
  if length < 0 then GoResult.panicked "makeslice: len out of range"
  else
    let b : Bytes := List.replicate length.toNat 0
    fillRandom intn charset b.length 0 calls b

/-- Lines 49-50: `keyDecoded := make([]byte, hex.DecodedLen(len(key)))` followed by
`hex.Decode(keyDecoded, key)`, whose error is not looked at: `keyDecoded` keeps the length
`len(key)/2` and holds what was decoded, zero bytes after it. -/
def decodeKey (lib : Libs) (key : Bytes) : Bytes :=
  (lib.hexDecode key ++ List.replicate (key.length / 2) 0).take (key.length / 2)

/-- The call `ed25519.Sign(privateKey, message)`: panics unless `len(privateKey)` is
`ed25519.PrivateKeySize`, which is 64. -/
def ed25519Sign (lib : Libs) (privateKey message : Bytes) : GoResult Bytes :=
  if privateKey.length = 64 then GoResult.returned (lib.sign privateKey message)
  else GoResult.panicked "ed25519: bad private key length"

/-- Lines 38-54.  The result is the pair `(SampleData, error)` (`none` is the nil error) and
the number of `Intn` calls made on the source after the call. -/
def NewSampleData (lib : Libs) (cfg : KeyInfo) (calls : Nat) :
    GoResult ((SampleData × Option String) × Nat) :=
  match lib.readFile cfg.Path with
  | Except.error err => GoResult.returned ((SampleData.zero, some err), calls)
  | Except.ok key =>
    match factoryRandomFixedLengthString lib.intn 128 (goString alphanumericCharset) calls with
    | GoResult.panicked msg => GoResult.panicked msg
    | GoResult.returned (description, calls1) =>
      match factoryRandomFixedLengthString lib.intn 64 (goString alphanumericCharset) calls1 with
      | GoResult.panicked msg => GoResult.panicked msg
      | GoResult.returned (seed, calls2) =>
        let keyDecoded := decodeKey lib key
        match ed25519Sign lib keyDecoded seed with
        | GoResult.panicked msg => GoResult.panicked msg
        | GoResult.returned signed =>
          GoResult.returned
            (({ Description := description, Seed := seed, Signature := lib.sprintfHex signed },
              none), calls2)

/-- Library functions for evaluating `NewSampleData`: the file `"key"` holds 128 bytes `'a'`,
any other path cannot be read; `Intn` call `i` with bound `n` gives `(7 * i + 3) % n`. -/
def demoLibs : Libs where
  readFile := fun p => if p = "key" then Except.ok (List.replicate 128 97) else Except.error "no such file"
  intn := fun i n => (7 * i + 3) % n
  hexDecode := fun src => List.replicate (src.length / 2) 170
  sign := fun _ msg => msg
  sprintfHex := fun b => b

end Models

namespace Pipeline

open Models

/-! ## Part 3. The goroutines of `bootstrap.go` and `create_loop.go`

The program modelled is `bootstrap.Run(ctx, cancel, cfg, handlers)` with the `CreateLoop`
stage as its handler: the calling goroutine, the signal listener started by
`translateInterruptToCancel`, and the worker and the watcher started by
`CreateLoop.BootstrapHandler`.  Each goroutine is a program counter over the statements of
its body; a schedule decides which one moves next.  Shared variables (`wg`, the context, the
captured variable `cancelled`, the channel `chPublish`) are read and written one statement
at a time. -/

/-- The goroutines, and `outside` for whoever else holds the `cancel` function. -/
inductive Task where
  | main
  | listener
  | worker
  | watcher
  | outside
  deriving DecidableEq

/-- The two `slog` levels `create_loop.go` writes at. -/
inductive Level where
  | debug
  | info
  deriving DecidableEq

/-- Actions a goroutine performs on something outside itself. -/
inductive Event where
  /-- Go `wg.Add(n)`. -/
  | wgAdd (n : Int)
  /-- Go `go func() {...}()` starting the given goroutine. -/
  | go (t : Task)
  /-- Go `return b` from `BootstrapHandler`. -/
  | handlerReturn (b : Bool)
  /-- Go `wg.Wait()` has returned. -/
  | wgWait
  /-- The deferred `wg.Done()`. -/
  | wgDone
  /-- Go `signal.Notify(signalStream, os.Interrupt, syscall.SIGTERM)`. -/
  | signalNotify
  /-- Go `case <-signalStream`. -/
  | recvSignal
  /-- Go `<-ctx.Done()` has yielded. -/
  | recvCtxDone
  /-- Go `cancel()`. -/
  | cancel
  /-- Go `signal.Stop(signalStream)`. -/
  | signalStop
  /-- Go `close(signalStream)`. -/
  | closeSignalStream
  /-- Go `c.logger.Error(msg)`. -/
  | logError (msg : String)
  /-- Go `c.logger.Write(level, msg)`. -/
  | logWrite (level : Level) (msg : String)
  /-- Go `c.sdk.Create(context.Background(), b)`. -/
  | sdkCreate (b : Bytes)
  /-- Go `c.chPublish <- b` has completed. -/
  | send (b : Bytes)
  /-- Go `time.Sleep(ns)`, in nanoseconds. -/
  | sleep (ns : Nat)
  /-- Go `close(c.chPublish)`. -/
  | closePublish
  /-- Go `cancelled = true`. -/
  | setCancelled
  deriving DecidableEq

/-- Program counter of the goroutine running `Run`, through `initWaitGroup`,
`translateInterruptToCancel` and `CreateLoop.BootstrapHandler`.  Each value names the
statement executed next. -/
inductive MainPc where
  /-- At `bootstrap.go:66`, `wg.Add(1)`. -/
  | addListener
  /-- At `bootstrap.go:67`, `go func() {...}()`. -/
  | goListener
  /-- At `create_loop.go:49`, `wg.Add(1)`. -/
  | addWorker
  /-- At `create_loop.go:50`, `go func() {...}()`. -/
  | goWorker
  /-- At `create_loop.go:69`, `wg.Add(1)`. -/
  | addWatcher
  /-- At `create_loop.go:70`, `go func() {...}()`. -/
  | goWatcher
  /-- At `create_loop.go:77`, `return true`; the loop of `bootstrap.go:52-58` then ends and
  `initWaitGroup` returns. -/
  | handlerReturn
  /-- At `bootstrap.go:38`, `wg.Wait()`. -/
  | wait
  /-- After `Run` has returned. -/
  | returned
  deriving DecidableEq

/-- Program counter of the listener goroutine, `bootstrap.go:67-84`. -/
inductive ListenerPc where
  | notStarted
  /-- Line 76, `signal.Notify(...)`; the two `defer`s and `make(chan os.Signal)` are behind. -/
  | notify
  /-- Line 77, blocked in `select`. -/
  | select
  /-- Line 79, `cancel()`, in the `case <-signalStream` arm. -/
  | cancel
  /-- Line 72, deferred `signal.Stop(signalStream)`. -/
  | signalStop
  /-- Line 73, deferred `close(signalStream)`. -/
  | closeStream
  /-- Line 68, deferred `wg.Done()`. -/
  | done
  | exited
  deriving DecidableEq

/-- Program counter of the worker goroutine, `create_loop.go:50-67`. -/
inductive WorkerPc where
  | notStarted
  /-- Line 53, the test `!cancelled`. -/
  | loopHead
  /-- Line 54, `models.NewSampleData(...)`. -/
  | generate
  /-- Line 56, `c.logger.Error(err.Error())`, followed by `continue`. -/
  | logError (err : String)
  /-- Line 59, `json.Marshal(data)`. -/
  | marshal (data : SampleData)
  /-- Line 61, `c.sdk.Create(context.Background(), b)`. -/
  | create (b : Bytes)
  /-- Line 62, `c.chPublish <- b`. -/
  | send (b : Bytes)
  /-- Line 63, `time.Sleep(1 * time.Second)`. -/
  | sleep
  /-- Line 65, `close(c.chPublish)`. -/
  | close
  /-- Line 66, `c.logger.Write(slog.LevelDebug, "cancel received")`. -/
  | logCancel
  /-- Line 51, deferred `wg.Done()`, on the normal return. -/
  | done
  /-- Line 51, deferred `wg.Done()`, while a panic unwinds the goroutine. -/
  | panicking (msg : String)
  | exited
  /-- The panic has ended the process. -/
  | crashed
  deriving DecidableEq

/-- Program counter of the watcher goroutine, `create_loop.go:70-76`. -/
inductive WatcherPc where
  | notStarted
  /-- Line 73, `<-ctx.Done()`. -/
  | waitCtx
  /-- Line 74, `c.logger.Write(slog.LevelInfo, "shutdown received")`. -/
  | logShutdown
  /-- Line 75, `cancelled = true`. -/
  | setCancelled
  /-- Line 71, deferred `wg.Done()`. -/
  | done
  | exited
  deriving DecidableEq

/-- What the worker obtains from outside the pipeline:
`newSampleData i` is how the `i`-th call of `models.NewSampleData(c.cfg.Signature.PrivateKey)`
ends (see `Models.NewSampleData`), and `jsonMarshal` is `json.Marshal` on a `SampleData`
(which cannot fail on a struct of three strings; its error is discarded on line 59). -/
structure Env where
  newSampleData : Nat → GoResult (SampleData × Option String)
  jsonMarshal : SampleData → Bytes

/-- State of the program. -/
structure Sys where
  mpc : MainPc
  lpc : ListenerPc
  wpc : WorkerPc
  hpc : WatcherPc
  /-- Counter of the `sync.WaitGroup` declared on `bootstrap.go:49`. -/
  wg : Int
  /-- Whether `ctx.Done()` is closed. -/
  ctxDone : Bool
  /-- The variable `cancelled` of `create_loop.go:48`, shared by worker and watcher. -/
  cancelled : Bool
  /-- Whether `chPublish` has been closed. -/
  publishClosed : Bool
  /-- Payloads the consumer has received from `chPublish`, latest first. -/
  received : List Bytes
  /-- Number of calls of `models.NewSampleData` made so far. -/
  iter : Nat
  /-- Whether an unrecovered panic has ended the process. -/
  crashed : Bool
  /-- Every event so far with the goroutine that performed it, latest first. -/
  log : List (Task × Event)
  deriving DecidableEq

/-- Who moves next. -/
inductive Label where
  /-- The calling goroutine executes its next statement. -/
  | main
  /-- The listener executes its next statement (in `select`: the `<-ctx.Done()` arm). -/
  | listener
  /-- The worker executes its next statement. -/
  | worker
  /-- The watcher executes its next statement. -/
  | watcher
  /-- The operating system delivers SIGINT or SIGTERM and the listener, blocked in `select`
  on the unbuffered `signalStream`, takes the `<-signalStream` arm. -/
  | signal
  /-- The consumer of `chPublish` receives, completing the worker's pending send. -/
  | receive
  /-- Someone other than the listener calls `cancel()`. -/
  | outsideCancel
  deriving DecidableEq

/-- State before anything has run: `main.go:88` has made `ctx` and `cancel`, `chPublish` is
open and empty, `cancelled` is about to be declared false, the wait group is at zero. -/
def Sys.init : Sys where
  mpc := MainPc.addListener
  lpc := ListenerPc.notStarted
  wpc := WorkerPc.notStarted
  hpc := WatcherPc.notStarted
  wg := 0
  ctxDone := false
  cancelled := false
  publishClosed := false
  received := []
  iter := 0
  crashed := false
  log := []

/-- Record an event. -/
def Sys.emit (s : Sys) (t : Task) (e : Event) : Sys := { s with log := (t, e) :: s.log }

/-- One statement of the calling goroutine.  `wg.Wait()` returns only when the counter is
zero. -/
def stepMain (s : Sys) : Option Sys :=
  match s.mpc with
  | MainPc.addListener =>
    some ({ s with mpc := MainPc.goListener, wg := s.wg + 1 }.emit Task.main (Event.wgAdd 1))
  | MainPc.goListener =>
    some ({ s with mpc := MainPc.addWorker, lpc := ListenerPc.notify }.emit Task.main
      (Event.go Task.listener))
  | MainPc.addWorker =>
    some ({ s with mpc := MainPc.goWorker, wg := s.wg + 1 }.emit Task.main (Event.wgAdd 1))
  | MainPc.goWorker =>
    some ({ s with mpc := MainPc.addWatcher, wpc := WorkerPc.loopHead }.emit Task.main
      (Event.go Task.worker))
  | MainPc.addWatcher =>
    some ({ s with mpc := MainPc.goWatcher, wg := s.wg + 1 }.emit Task.main (Event.wgAdd 1))
  | MainPc.goWatcher =>
    some ({ s with mpc := MainPc.handlerReturn, hpc := WatcherPc.waitCtx }.emit Task.main
      (Event.go Task.watcher))
  | MainPc.handlerReturn =>
    some ({ s with mpc := MainPc.wait }.emit Task.main (Event.handlerReturn true))
  | MainPc.wait =>
    if s.wg = 0 then some ({ s with mpc := MainPc.returned }.emit Task.main Event.wgWait)
    else none
  | MainPc.returned => none

/-- One statement of the listener.  In `select` this is the `<-ctx.Done()` arm, which is
ready only once the context is done. -/
def stepListener (s : Sys) : Option Sys :=
  match s.lpc with
  | ListenerPc.notStarted => none
  | ListenerPc.notify =>
    some ({ s with lpc := ListenerPc.select }.emit Task.listener Event.signalNotify)
  | ListenerPc.select =>
    if s.ctxDone then
      some ({ s with lpc := ListenerPc.signalStop }.emit Task.listener Event.recvCtxDone)
    else none
  | ListenerPc.cancel =>
    some ({ s with lpc := ListenerPc.signalStop, ctxDone := true }.emit Task.listener
      Event.cancel)
  | ListenerPc.signalStop =>
    some ({ s with lpc := ListenerPc.closeStream }.emit Task.listener Event.signalStop)
  | ListenerPc.closeStream =>
    some ({ s with lpc := ListenerPc.done }.emit Task.listener Event.closeSignalStream)
  | ListenerPc.done =>
    some ({ s with lpc := ListenerPc.exited, wg := s.wg - 1 }.emit Task.listener Event.wgDone)
  | ListenerPc.exited => none

/-- The `<-signalStream` arm of the listener's `select`. -/
def stepSignal (s : Sys) : Option Sys :=
  match s.lpc with
  | ListenerPc.select =>
    some ({ s with lpc := ListenerPc.cancel }.emit Task.listener Event.recvSignal)
  | _ => none

/-- One statement of the worker.  The send on the unbuffered `chPublish` cannot complete by
itself: it needs the consumer (see `stepReceive`).  Closing a closed channel and sending on
a closed channel panic, as does a panic inside `NewSampleData`; a panic runs the deferred
`wg.Done()` and then ends the process. -/
def stepWorker (env : Env) (s : Sys) : Option Sys :=
  match s.wpc with
  | WorkerPc.notStarted => none
  | WorkerPc.loopHead =>
    if s.cancelled then some { s with wpc := WorkerPc.close }
    else some { s with wpc := WorkerPc.generate }
  | WorkerPc.generate =>
    match env.newSampleData s.iter with
    | GoResult.panicked msg => some { s with wpc := WorkerPc.panicking msg, iter := s.iter + 1 }
    | GoResult.returned (_, some err) =>
      some { s with wpc := WorkerPc.logError err, iter := s.iter + 1 }
    | GoResult.returned (data, none) =>
      some { s with wpc := WorkerPc.marshal data, iter := s.iter + 1 }
  | WorkerPc.logError err =>
    some ({ s with wpc := WorkerPc.loopHead }.emit Task.worker (Event.logError err))
  | WorkerPc.marshal data => some { s with wpc := WorkerPc.create (env.jsonMarshal data) }
  | WorkerPc.create b =>
    some ({ s with wpc := WorkerPc.send b }.emit Task.worker (Event.sdkCreate b))
  | WorkerPc.send _ =>
    if s.publishClosed then some { s with wpc := WorkerPc.panicking "send on closed channel" }
    else none
  | WorkerPc.sleep =>
    some ({ s with wpc := WorkerPc.loopHead }.emit Task.worker (Event.sleep 1000000000))
  | WorkerPc.close =>
    if s.publishClosed then some { s with wpc := WorkerPc.panicking "close of closed channel" }
    else
      some ({ s with wpc := WorkerPc.logCancel, publishClosed := true }.emit Task.worker
        Event.closePublish)
  | WorkerPc.logCancel =>
    some ({ s with wpc := WorkerPc.done }.emit Task.worker
      (Event.logWrite Level.debug "cancel received"))
  | WorkerPc.done =>
    some ({ s with wpc := WorkerPc.exited, wg := s.wg - 1 }.emit Task.worker Event.wgDone)
  | WorkerPc.panicking _ =>
    some ({ s with wpc := WorkerPc.crashed, wg := s.wg - 1, crashed := true }.emit Task.worker
      Event.wgDone)
  | WorkerPc.exited => none
  | WorkerPc.crashed => none

/-- The consumer receives from `chPublish`: the worker's pending send completes. -/
def stepReceive (s : Sys) : Option Sys :=
  match s.wpc with
  | WorkerPc.send b =>
    if s.publishClosed then none
    else
      some ({ s with wpc := WorkerPc.sleep, received := b :: s.received }.emit Task.worker
        (Event.send b))
  | _ => none

/-- One statement of the watcher.  `<-ctx.Done()` yields only once the context is done. -/
def stepWatcher (s : Sys) : Option Sys :=
  match s.hpc with
  | WatcherPc.notStarted => none
  | WatcherPc.waitCtx =>
    if s.ctxDone then
      some ({ s with hpc := WatcherPc.logShutdown }.emit Task.watcher Event.recvCtxDone)
    else none
  | WatcherPc.logShutdown =>
    some ({ s with hpc := WatcherPc.setCancelled }.emit Task.watcher
      (Event.logWrite Level.info "shutdown received"))
  | WatcherPc.setCancelled =>
    some ({ s with hpc := WatcherPc.done, cancelled := true }.emit Task.watcher
      Event.setCancelled)
  | WatcherPc.done =>
    some ({ s with hpc := WatcherPc.exited, wg := s.wg - 1 }.emit Task.watcher Event.wgDone)
  | WatcherPc.exited => none

/-- A call of `cancel()` from outside the listener; cancelling a context is idempotent. -/
def stepOutsideCancel (s : Sys) : Option Sys :=
  some ({ s with ctxDone := true }.emit Task.outside Event.cancel)

/-- The move `l` from state `s`, or `none` when `l` cannot move in `s`.  Nothing moves once
the process has crashed. -/
def step (env : Env) (l : Label) (s : Sys) : Option Sys :=
  if s.crashed then none
  else
    match l with
    | Label.main => stepMain s
    | Label.listener => stepListener s
    | Label.worker => stepWorker env s
    | Label.watcher => stepWatcher s
    | Label.signal => stepSignal s
    | Label.receive => stepReceive s
    | Label.outsideCancel => stepOutsideCancel s

/-- The move `l` if it is possible, otherwise no change. -/
def next (env : Env) (s : Sys) (l : Label) : Sys := (step env l s).getD s

/-- Run a schedule from `s`; a label that cannot move is skipped. -/
def exec (env : Env) (sched : List Label) (s : Sys) : Sys := sched.foldl (next env) s

/-- Events of goroutine `t` in a log, latest first. -/
def evs (t : Task) (log : List (Task × Event)) : List Event :=
  (log.filter fun p => p.1 = t).map Prod.snd

/-- Events of goroutine `t` so far, in the order they happened. -/
def Sys.eventsOf (s : Sys) (t : Task) : List Event := (evs t s.log).reverse

/-- The events of a listener that woke on a signal, start to exit. -/
def listenerOnSignal : List Event :=
  [Event.signalNotify, Event.recvSignal, Event.cancel, Event.signalStop,
    Event.closeSignalStream, Event.wgDone]

/-- The events of a listener that woke on the context being done, start to exit. -/
def listenerOnCtxDone : List Event :=
  [Event.signalNotify, Event.recvCtxDone, Event.signalStop, Event.closeSignalStream,
    Event.wgDone]

/-- The events of a watcher, start to exit. -/
def watcherRun : List Event :=
  [Event.recvCtxDone, Event.logWrite Level.info "shutdown received", Event.setCancelled,
    Event.wgDone]

/-- The events of the calling goroutine, start to the return of `Run`. -/
def mainRun : List Event :=
  [Event.wgAdd 1, Event.go Task.listener, Event.wgAdd 1, Event.go Task.worker, Event.wgAdd 1,
    Event.go Task.watcher, Event.handlerReturn true, Event.wgWait]

/-- Whether an event is an operation on `chPublish`. -/
def Event.onPublish : Event → Bool
  | Event.send _ => true
  | Event.closePublish => true
  | _ => false

/-- Whether an event is a send on `chPublish`. -/
def Event.isSend : Event → Bool
  | Event.send _ => true
  | _ => false

/-- An environment for evaluation: the calls of `NewSampleData` succeed, except the second
(index 1), which returns an error, and the sixth (index 5), which panics; `json.Marshal` is
represented by the bytes of the seed. -/
def demoEnv : Env where
  newSampleData := fun i =>
    if i = 1 then GoResult.returned (SampleData.zero, some "open key: no such file")
    else if i = 5 then GoResult.panicked "ed25519: bad private key length"
    else GoResult.returned ({ Description := [100], Seed := [i.toUInt8], Signature := [] }, none)
  jsonMarshal := fun d => d.Seed

end Pipeline

namespace Pipeline

open Models

/-! ### Invariants of the goroutine machine -/

/-- Number of statements the calling goroutine has executed. -/
def mainIndex : MainPc → Nat
  | MainPc.addListener => 0
  | MainPc.goListener => 1
  | MainPc.addWorker => 2
  | MainPc.goWorker => 3
  | MainPc.addWatcher => 4
  | MainPc.goWatcher => 5
  | MainPc.handlerReturn => 6
  | MainPc.wait => 7
  | MainPc.returned => 8

/-- Number of events the watcher has performed. -/
def watcherIndex : WatcherPc → Nat
  | WatcherPc.notStarted => 0
  | WatcherPc.waitCtx => 0
  | WatcherPc.logShutdown => 1
  | WatcherPc.setCancelled => 2
  | WatcherPc.done => 3
  | WatcherPc.exited => 4

/-- Chronological traces the listener can have at each program counter. -/
def listenerTraces : ListenerPc → List (List Event)
  | ListenerPc.notStarted => [[]]
  | ListenerPc.notify => [[]]
  | ListenerPc.select => [listenerOnSignal.take 1]
  | ListenerPc.cancel => [listenerOnSignal.take 2]
  | ListenerPc.signalStop => [listenerOnSignal.take 3, listenerOnCtxDone.take 2]
  | ListenerPc.closeStream => [listenerOnSignal.take 4, listenerOnCtxDone.take 3]
  | ListenerPc.done => [listenerOnSignal.take 5, listenerOnCtxDone.take 4]
  | ListenerPc.exited => [listenerOnSignal, listenerOnCtxDone]

/-- What the worker does after its loop, as far as it has got at each program counter. -/
def workerTail : WorkerPc → List Event
  | WorkerPc.logCancel => [Event.closePublish]
  | WorkerPc.done => [Event.closePublish, Event.logWrite Level.debug "cancel received"]
  | WorkerPc.exited =>
    [Event.closePublish, Event.logWrite Level.debug "cancel received", Event.wgDone]
  | WorkerPc.crashed => [Event.wgDone]
  | _ => []

/-- Whether an event is one of those the worker performs inside its loop. -/
def Event.inLoop : Event → Bool
  | Event.logError _ => true
  | Event.sdkCreate _ => true
  | Event.send _ => true
  | Event.sleep _ => true
  | _ => false

/-- Whether the worker has closed `chPublish`. -/
def workerClosed : WorkerPc → Bool
  | WorkerPc.logCancel => true
  | WorkerPc.done => true
  | WorkerPc.exited => true
  | _ => false

/-- Whether the listener has finished. -/
def ListenerPc.gone : ListenerPc → Bool
  | ListenerPc.exited => true
  | _ => false

/-- Whether the worker has finished (by returning or in a crash). -/
def WorkerPc.gone : WorkerPc → Bool
  | WorkerPc.exited => true
  | WorkerPc.crashed => true
  | _ => false

/-- Whether the watcher has finished. -/
def WatcherPc.gone : WatcherPc → Bool
  | WatcherPc.exited => true
  | _ => false

/-- One wait-group ticket: held from the `wg.Add(1)` (the calling goroutine has executed
more than `k` statements) until the goroutine has finished. -/
def ticket (s : Sys) (k : Nat) (gone : Bool) : Int :=
  if k < mainIndex s.mpc ∧ gone = false then 1 else 0

/-- How the program counters and flags hang together. -/
structure Links (s : Sys) : Prop where
  listener : s.lpc = ListenerPc.notStarted ↔ mainIndex s.mpc ≤ 1
  worker : s.wpc = WorkerPc.notStarted ↔ mainIndex s.mpc ≤ 3
  watcher : s.hpc = WatcherPc.notStarted ↔ mainIndex s.mpc ≤ 5
  crashed : s.crashed = true ↔ s.wpc = WorkerPc.crashed
  cancelled : s.cancelled = true ↔ 3 ≤ watcherIndex s.hpc
  closed : s.publishClosed = workerClosed s.wpc
  ctx : 1 ≤ watcherIndex s.hpc → s.ctxDone = true

/-- What each goroutine has done, and the wait-group counter. -/
structure Traces (s : Sys) : Prop where
  main : s.eventsOf Task.main = mainRun.take (mainIndex s.mpc)
  listener : s.eventsOf Task.listener ∈ listenerTraces s.lpc
  watcher : s.eventsOf Task.watcher = watcherRun.take (watcherIndex s.hpc)
  tail : (evs Task.worker s.log).take (workerTail s.wpc).length = (workerTail s.wpc).reverse
  loop : ∀ e ∈ (evs Task.worker s.log).drop (workerTail s.wpc).length, e.inLoop = true
  outside : ∀ e ∈ evs Task.outside s.log, e = Event.cancel
  wg : s.wg = ticket s 0 s.lpc.gone + ticket s 2 s.wpc.gone + ticket s 4 s.hpc.gone

end Pipeline

namespace Pipeline

/-- The deferred `wg.Done()` is the last event of a trace and occurs in it exactly once. -/
def releasedLast (tr : List Event) : Prop :=
  tr.getLast? = some Event.wgDone ∧ tr.count Event.wgDone = 1

end Pipeline

namespace Pipeline

open Models

/-- The part of the state the worker's moves read and write, with the worker's own events
(latest first). -/
def workerView (s : Sys) : WorkerPc × Nat × List Event × List Bytes × Bool × Bool :=
  (s.wpc, s.iter, evs Task.worker s.log, s.received, s.publishClosed, s.crashed)

/-- A schedule in which neither the worker moves nor the consumer receives. -/
def NoWorkerMove (sched : List Label) : Prop :=
  ∀ l ∈ sched, l ≠ Label.worker ∧ l ≠ Label.receive

end Pipeline

namespace Pipeline

/-- A schedule in which the worker completes one successful and one failed iteration, the
context is then cancelled, the watcher sets the flag, and the worker leaves its loop, closes
`chPublish` and exits. -/
def workerExitSchedule : List Label :=
  [Label.main, Label.main, Label.main, Label.main, Label.main, Label.main, Label.main,
    Label.worker, Label.worker, Label.worker, Label.worker, Label.receive, Label.worker,
    Label.worker, Label.worker, Label.worker,
    Label.listener, Label.signal, Label.listener, Label.watcher, Label.watcher, Label.watcher,
    Label.worker, Label.worker, Label.worker, Label.worker]

/-- A schedule that runs the whole program to the return of `Run`: everything starts, a
signal arrives, the listener cancels and exits, the watcher sets the flag and exits, the
worker leaves its loop and exits, `wg.Wait()` returns. -/
def signalShutdownSchedule : List Label :=
  [Label.main, Label.main, Label.main, Label.main, Label.main, Label.main, Label.main,
    Label.listener, Label.signal, Label.listener, Label.listener, Label.listener,
    Label.listener,
    Label.watcher, Label.watcher, Label.watcher, Label.watcher,
    Label.worker, Label.worker, Label.worker, Label.worker,
    Label.main]

/-- A schedule in which the context is cancelled from outside and the listener takes the
`<-ctx.Done()` arm. -/
def outsideCancelSchedule : List Label :=
  [Label.main, Label.main, Label.listener, Label.outsideCancel, Label.listener, Label.listener,
    Label.listener, Label.listener]

end Pipeline

namespace Pipeline

open Models

/-- Calls of `NewSampleData` the worker can still make once the stop flag is set: one if it
has passed the test of the flag and not yet made the call, otherwise none. -/
def callBudget : WorkerPc → Nat
  | WorkerPc.generate => 1
  | _ => 0

/-- Sends the worker can still make once the stop flag is set: one if it is inside an
iteration and has not yet sent, otherwise none. -/
def sendBudget : WorkerPc → Nat
  | WorkerPc.generate => 1
  | WorkerPc.marshal _ => 1
  | WorkerPc.create _ => 1
  | WorkerPc.send _ => 1
  | _ => 0

/-- Startup: the calling goroutine runs up to `wg.Wait()`. -/
def startSchedule : List Label :=
  [Label.main, Label.main, Label.main, Label.main, Label.main, Label.main, Label.main]

/-- Startup, then a signal: the listener registers, receives the signal and calls
`cancel()`. -/
def signalSchedule : List Label :=
  startSchedule ++ [Label.listener, Label.signal, Label.listener]

/-- The worker reaches its send, a signal arrives and the listener cancels the context, and
the watcher sets the flag and exits; the consumer has not received. -/
def blockedSchedule : List Label :=
  startSchedule ++
    [Label.worker, Label.worker, Label.worker, Label.worker,
      Label.listener, Label.signal, Label.listener,
      Label.watcher, Label.watcher, Label.watcher, Label.watcher]

/-- A signal cancels the context right after startup, but the watcher is not scheduled; the
worker meanwhile goes through three iterations (a success, a failure, a success), the
consumer receiving each payload. -/
def lateFlagSchedule : List Label :=
  signalSchedule ++
    [Label.worker, Label.worker, Label.worker, Label.worker, Label.receive, Label.worker,
      Label.worker, Label.worker, Label.worker,
      Label.worker, Label.worker, Label.worker, Label.worker, Label.receive, Label.worker]

/-- The worker and the consumer take turns, nine times. -/
def drainSchedule : List Label :=
  [Label.worker, Label.receive, Label.worker, Label.receive, Label.worker, Label.receive,
    Label.worker, Label.receive, Label.worker, Label.receive, Label.worker, Label.receive,
    Label.worker, Label.receive, Label.worker, Label.receive, Label.worker, Label.receive]

end Pipeline

namespace Pipeline

open Models

/-- Moves the worker still has to make before it has finished, once the stop flag is set
(a return of `NewSampleData` with an error or a panic only shortens the way). -/
def workerRemaining : WorkerPc → Nat
  | WorkerPc.notStarted => 5
  | WorkerPc.loopHead => 4
  | WorkerPc.generate => 9
  | WorkerPc.logError _ => 5
  | WorkerPc.marshal _ => 8
  | WorkerPc.create _ => 7
  | WorkerPc.send _ => 6
  | WorkerPc.sleep => 5
  | WorkerPc.close => 3
  | WorkerPc.logCancel => 2
  | WorkerPc.done => 1
  | WorkerPc.panicking _ => 1
  | WorkerPc.exited => 0
  | WorkerPc.crashed => 0

/-- One round of `drainSchedule`: the worker moves, then the consumer receives. -/
def drainRound (env : Env) (s : Sys) : Sys :=
  next env (next env s Label.worker) Label.receive

/-- What the drain argument needs of a state: the flag is set, the worker has been started,
a crashed process has a crashed worker, and the channel is closed exactly when the worker
has closed it. -/
def Draining (s : Sys) : Prop :=
  s.cancelled = true ∧ s.wpc ≠ WorkerPc.notStarted ∧
    (s.crashed = true → s.wpc = WorkerPc.crashed) ∧ s.publishClosed = workerClosed s.wpc

/-- The worker is not on the way to a crash: it is not unwinding a panic, has not crashed,
and a call of `NewSampleData` it is about to make does not panic. -/
def NoPanic (env : Env) (s : Sys) : Prop :=
  (∀ msg, s.wpc ≠ WorkerPc.panicking msg) ∧ s.wpc ≠ WorkerPc.crashed ∧
    (s.wpc = WorkerPc.generate → ∀ msg, env.newSampleData s.iter ≠ GoResult.panicked msg)

end Pipeline

namespace Pipeline

open Models

/-! ### The sequential runner of Part 1 on the state of Part 3 -/

/-- The runtime the runner of Part 1 has in the program of Part 3: `wg.Add(n)` and the `go`
statement of `translateInterruptToCancel`, performed by the calling goroutine. -/
def sysRuntime : Bootstrap.GoRuntime Unit Unit Sys where
  wgAdd := fun _ n s => { s with wg := s.wg + n }.emit Task.main (Event.wgAdd n)
  goListener := fun _ _ s =>
    { s with lpc := ListenerPc.notify }.emit Task.main (Event.go Task.listener)

/-- The cancel function of `main.go:88` as the calling goroutine would call it. -/
def sysCancel (s : Sys) : Sys := { s with ctxDone := true }.emit Task.main Event.cancel

/-- Lines 47-78 of `create_loop.go` run as one piece by the calling goroutine:
`wg.Add(1)`, `go` worker, `wg.Add(1)`, `go` watcher, `return true`. -/
def createLoopHandler : Bootstrap.BootstrapHandler Unit Unit Sys := fun _ _ s =>
  let s1 := { s with wg := s.wg + 1 }.emit Task.main (Event.wgAdd 1)
  let s2 := { s1 with wpc := WorkerPc.loopHead }.emit Task.main (Event.go Task.worker)
  let s3 := { s2 with wg := s2.wg + 1 }.emit Task.main (Event.wgAdd 1)
  let s4 := { s3 with hpc := WatcherPc.waitCtx }.emit Task.main (Event.go Task.watcher)
  (true, s4.emit Task.main (Event.handlerReturn true))

/-- A handler that starts nothing and returns false, as the handler of a stage that cannot
start does. -/
def failingHandler : Bootstrap.BootstrapHandler Unit Unit Sys := fun _ _ s =>
  (false, s.emit Task.main (Event.handlerReturn false))

/-- The handler `h` in a run in which the other goroutines make the moves `sched` between
the return of `h` and the next statement of the calling goroutine (the test on
`bootstrap.go:53`). -/
def withMoves (env : Env) (sched : List Label)
    (h : Bootstrap.BootstrapHandler Unit Unit Sys) : Bootstrap.BootstrapHandler Unit Unit Sys :=
  fun ctx wg s => ((h ctx wg s).1, exec env sched (h ctx wg s).2)

/-- Go `wg.Wait()` on `bootstrap.go:38` in a run in which, from the moment the calling
goroutine reaches it, the other goroutines make the moves `sched`: the call returns if the
counter is then zero (the `wait` case of `stepMain`), and has not returned otherwise. -/
def sysWait (env : Env) (sched : List Label) : Unit → Sys → Option Sys := fun _ s =>
  step env Label.main (exec env sched { s with mpc := MainPc.wait })

/-- Whether an event is a call of `cancel()`. -/
def Event.isCancel : Event → Bool
  | Event.cancel => true
  | _ => false

/-- The goroutines that have called `cancel()`, one entry per call, in the order of the
calls. -/
def Sys.cancelCallers (s : Sys) : List Task :=
  ((s.log.filter fun p => p.2.isCancel).map Prod.fst).reverse

/-- While the first handler is returning, the listener registers for signals, a signal
arrives, and the listener calls `cancel()`. -/
def signalDuringStartup : List Label := [Label.listener, Label.signal, Label.listener]

/-- The listener registers, finds the context done and exits. -/
def listenerExitSchedule : List Label :=
  [Label.listener, Label.listener, Label.listener, Label.listener, Label.listener]

/-- After startup: a signal arrives, the listener cancels and exits, the watcher sets the
flag and exits, the worker leaves its loop and exits (`signalShutdownSchedule` without the
moves of the calling goroutine). -/
def shutdownAfterStart : List Label :=
  [Label.listener, Label.signal, Label.listener, Label.listener, Label.listener,
    Label.listener,
    Label.watcher, Label.watcher, Label.watcher, Label.watcher,
    Label.worker, Label.worker, Label.worker, Label.worker]

/-- After a start that failed once `CreateLoop` was running: the worker reaches its send, the
listener finds the context done and exits, the watcher sets the flag and exits. -/
def workerLeftSchedule : List Label :=
  [Label.worker, Label.worker, Label.worker, Label.worker,
    Label.listener, Label.listener, Label.listener, Label.listener, Label.listener,
    Label.watcher, Label.watcher, Label.watcher, Label.watcher]

/-- The calling goroutine is in `wg.Wait()`, listener and watcher have exited, and the worker
is in its send on the open `chPublish`, holding the one ticket left. -/
def WorkerLeftInSend (s : Sys) : Prop :=
  s.mpc = MainPc.wait ∧ s.lpc = ListenerPc.exited ∧ s.hpc = WatcherPc.exited ∧
    (∃ b, s.wpc = WorkerPc.send b) ∧ s.publishClosed = false ∧ s.wg = 1 ∧ s.crashed = false

end Pipeline

namespace Bootstrap

variable {κ ω σ : Type}

theorem resultAt_zero (ctx : κ) (wg : ω) (h : BootstrapHandler κ ω σ)
    (hs : List (BootstrapHandler κ ω σ)) (w : σ) :
    resultAt ctx wg (h :: hs) w 0 = (h ctx wg w).1 := by
  simp [resultAt, worldBefore]

theorem resultAt_succ (ctx : κ) (wg : ω) (h : BootstrapHandler κ ω σ)
    (hs : List (BootstrapHandler κ ω σ)) (w : σ) (j : Nat) :
    resultAt ctx wg (h :: hs) w (j + 1) = resultAt ctx wg hs (h ctx wg w).2 j := by
  simp [resultAt, worldBefore]

theorem handlerCalls_succ (ctx : κ) (wg : ω) (i n : Nat) :
    handlerCalls ctx wg i (n + 1) = Call.handler i ctx wg :: handlerCalls ctx wg (i + 1) n := by
  simp only [handlerCalls, List.range_succ_eq_map, List.map_cons, List.map_map, Nat.add_zero]
  congr 1
  apply List.map_congr_left
  intro a _
  simp [Function.comp, Nat.add_comm, Nat.add_left_comm]

theorem handlerCalls_zero (ctx : κ) (wg : ω) (i : Nat) :
    handlerCalls ctx wg i 0 = [] := by
  simp [handlerCalls]

theorem allSucceed_tail {ctx : κ} {wg : ω} {h : BootstrapHandler κ ω σ}
    {hs : List (BootstrapHandler κ ω σ)} {w : σ} (hall : AllSucceed ctx wg (h :: hs) w) :
    (h ctx wg w).1 = true ∧ AllSucceed ctx wg hs (h ctx wg w).2 := by
  constructor
  · have := hall 0 (by simp)
    rwa [resultAt_zero] at this
  · intro j hj
    have := hall (j + 1) (by simpa using hj)
    rwa [resultAt_succ] at this

/-- The loop when every handler returns true: all of them are called, in order, and the
loop ends with `startedSuccessfully` still true and without calling `cancel`. -/
theorem handlerLoop_allSucceed (ctx : κ) (wg : ω) (cancel : σ → σ) :
    ∀ (hs : List (BootstrapHandler κ ω σ)) (i : Nat) (r : Runner κ ω σ),
      AllSucceed ctx wg hs r.world →
      handlerLoop ctx wg cancel i hs r =
        (true, { world := worldBefore ctx wg hs r.world hs.length
                 calls := r.calls ++ handlerCalls ctx wg i hs.length }) := by
  intro hs
  induction hs with
  | nil => intro i r _; simp [handlerLoop, worldBefore, handlerCalls]
  | cons h hs ih =>
    intro i r hall
    obtain ⟨h0, htl⟩ := allSucceed_tail hall
    simp only [handlerLoop, h0, List.length_cons]
    rw [ih (i + 1) _ htl]
    simp [worldBefore, handlerCalls_succ]

/-- The loop when handler `k` is the first to return false: handlers `0..k` are called, in
order, then `cancel`, and the loop ends with `startedSuccessfully` false. -/
theorem handlerLoop_firstFailure (ctx : κ) (wg : ω) (cancel : σ → σ) :
    ∀ (hs : List (BootstrapHandler κ ω σ)) (i : Nat) (r : Runner κ ω σ) (k : Nat),
      FirstFailure ctx wg hs r.world k →
      handlerLoop ctx wg cancel i hs r =
        (false, { world := cancel (worldBefore ctx wg hs r.world (k + 1))
                  calls := r.calls ++ handlerCalls ctx wg i (k + 1) ++ [Call.cancel] }) := by
  intro hs
  induction hs with
  | nil => intro i r k hk; exact absurd hk.1 (by simp)
  | cons h hs ih =>
    intro i r k hk
    obtain ⟨hlen, hfalse, hbefore⟩ := hk
    cases k with
    | zero =>
      rw [resultAt_zero] at hfalse
      simp [handlerLoop, hfalse, worldBefore, handlerCalls_succ, handlerCalls_zero]
    | succ k =>
      have h0 : (h ctx wg r.world).1 = true := by
        have := hbefore 0 (Nat.succ_pos k)
        rwa [resultAt_zero] at this
      have htl : FirstFailure ctx wg hs (h ctx wg r.world).2 k := by
        refine ⟨by simpa using hlen, ?_, ?_⟩
        · rwa [resultAt_succ] at hfalse
        · intro j hj
          have := hbefore (j + 1) (Nat.succ_lt_succ hj)
          rwa [resultAt_succ] at this
      simp only [handlerLoop, h0]
      rw [ih (i + 1) _ k htl]
      simp [worldBefore, handlerCalls_succ (n := k + 1)]

/-- Either every handler returns true or there is a first one that returns false. -/
theorem allSucceed_or_firstFailure (ctx : κ) (wg : ω) (hs : List (BootstrapHandler κ ω σ))
    (w : σ) : AllSucceed ctx wg hs w ∨ ∃ k, FirstFailure ctx wg hs w k := by
  by_cases hall : AllSucceed ctx wg hs w
  · exact Or.inl hall
  · right
    have hex : ∃ j, j < hs.length ∧ resultAt ctx wg hs w j = false := by
      by_contra hne
      apply hall
      intro j hj
      by_contra hj2
      exact hne ⟨j, hj, by simpa using hj2⟩
    classical
    refine ⟨Nat.find hex, (Nat.find_spec hex).1, (Nat.find_spec hex).2, ?_⟩
    intro j hj
    have hmin := Nat.find_min hex hj
    have hjlen : j < hs.length := lt_trans hj (Nat.find_spec hex).1
    by_contra hne
    exact hmin ⟨hjlen, by simpa using hne⟩

theorem not_allSucceed_of_firstFailure {ctx : κ} {wg : ω} {hs : List (BootstrapHandler κ ω σ)}
    {w : σ} {k : Nat} (hk : FirstFailure ctx wg hs w k) : ¬ AllSucceed ctx wg hs w := by
  intro hall
  have := hall k hk.1
  rw [hk.2.1] at this
  exact Bool.noConfusion this

theorem invokedIndices_append (a b : List (Call κ ω)) :
    invokedIndices (a ++ b) = invokedIndices a ++ invokedIndices b := by
  simp [invokedIndices, List.filterMap_append]

theorem invokedIndices_handlerCalls (ctx : κ) (wg : ω) (i n : Nat) :
    invokedIndices (handlerCalls ctx wg i n) = (List.range n).map (fun j => i + j) := by
  simp [invokedIndices, handlerCalls, List.filterMap_map, Function.comp]
  induction (List.range n) with
  | nil => rfl
  | cons a l ih => simp [List.filterMap_cons, ih]

theorem cancelCount_append (a b : List (Call κ ω)) :
    cancelCount (a ++ b) = cancelCount a + cancelCount b := by
  simp [cancelCount, List.countP_append]

theorem cancelCount_handlerCalls (ctx : κ) (wg : ω) (i n : Nat) :
    cancelCount (handlerCalls ctx wg i n) = 0 := by
  simp [cancelCount, handlerCalls, List.countP_eq_zero]

/-- What `Run` does after `initWaitGroup`: `wg.Wait()` on the wait group it was handed, and
nothing else. -/
theorem Run_eq_map (rt : GoRuntime κ ω σ) (wgWait : ω → σ → Option σ) (ctx : κ)
    (cancel : σ → σ) (wg : ω) (hs : List (BootstrapHandler κ ω σ)) (w : σ) :
    Run rt wgWait ctx cancel wg hs w =
      (wgWait wg (initWaitGroup rt ctx cancel wg hs w).2.world).map fun w1 =>
        ((), { world := w1
               calls := (initWaitGroup rt ctx cancel wg hs w).2.calls ++ [Call.wait wg] }) := by
  show (match wgWait wg (initWaitGroup rt ctx cancel wg hs w).2.world with
    | none => none
    | some w1 => some ((), ({ world := w1
                              calls := (initWaitGroup rt ctx cancel wg hs w).2.calls ++
                                [Call.wait wg] } : Runner κ ω σ))) = _
  cases wgWait wg (initWaitGroup rt ctx cancel wg hs w).2.world <;> rfl

end Bootstrap

namespace Bootstrap

variable {κ ω σ : Type}

/-- C1, as amended (fail-fast startup).  When handler `k` is the first handler to return
false, the handlers `initWaitGroup` invokes are exactly those at the indices `0, ..., k`, so
none at an index greater than `k`; `initWaitGroup` itself calls the shared `cancel`
function exactly once, as the last call it makes; the world it leaves is the one handlers
`0, ..., k` produced, run in list order from the world `translateInterruptToCancel` left,
with `cancel` applied to it once; and it reports `startedSuccessfully = false`.  Calls of
`cancel` made by the listener goroutine are not among those counted. -/
theorem initWaitGroup_fail_fast (rt : GoRuntime κ ω σ) (ctx : κ) (cancel : σ → σ) (wg : ω)
    (hs : List (BootstrapHandler κ ω σ)) (w : σ) (k : Nat)
    (hk : FirstFailure ctx wg hs (translateInterruptToCancel rt ctx wg w) k) :
    invokedIndices (initWaitGroup rt ctx cancel wg hs w).2.calls = List.range (k + 1) ∧
      (∀ j, k < j → j ∉ invokedIndices (initWaitGroup rt ctx cancel wg hs w).2.calls) ∧
      cancelCount (initWaitGroup rt ctx cancel wg hs w).2.calls = 1 ∧
      (initWaitGroup rt ctx cancel wg hs w).2.calls.getLast? = some Call.cancel ∧
      (initWaitGroup rt ctx cancel wg hs w).2.world =
        cancel (worldBefore ctx wg hs (translateInterruptToCancel rt ctx wg w) (k + 1)) ∧
      (initWaitGroup rt ctx cancel wg hs w).1.2 = false := by
  have hloop := handlerLoop_firstFailure ctx wg cancel hs 0
    { world := translateInterruptToCancel rt ctx wg w
      calls := [Call.translateInterruptToCancel ctx wg] } k hk
  simp only [initWaitGroup, hloop]
  have hidx : invokedIndices ([Call.translateInterruptToCancel ctx wg] ++
      handlerCalls ctx wg 0 (k + 1) ++ [Call.cancel]) = List.range (k + 1) := by
    rw [invokedIndices_append, invokedIndices_append, invokedIndices_handlerCalls]
    simp [invokedIndices]
  refine ⟨hidx, ?_, ?_, ?_, trivial, trivial⟩
  · intro j hj hmem
    rw [hidx, List.mem_range] at hmem
    omega
  · rw [cancelCount_append, cancelCount_append, cancelCount_handlerCalls]
    simp [cancelCount]
  · exact List.getLast?_concat _

/-- Witness for C1: of three handlers the second returns false; handlers 0 and 1 are
invoked, the third is not, `cancel` is called once, and the world shows the effects
`100, 101` of `translateInterruptToCancel`, `0, 1` of the two handlers and `102` of
`cancel`. -/
theorem initWaitGroup_fail_fast_witness :
    FirstFailure () () [demoHandler 0 true, demoHandler 1 false, demoHandler 2 true]
        (translateInterruptToCancel demoRuntime () () []) 1 ∧
      invokedIndices (initWaitGroup demoRuntime () demoCancel ()
        [demoHandler 0 true, demoHandler 1 false, demoHandler 2 true] []).2.calls = [0, 1] ∧
      cancelCount (initWaitGroup demoRuntime () demoCancel ()
        [demoHandler 0 true, demoHandler 1 false, demoHandler 2 true] []).2.calls = 1 ∧
      (initWaitGroup demoRuntime () demoCancel ()
        [demoHandler 0 true, demoHandler 1 false, demoHandler 2 true] []).2.world =
          [100, 101, 0, 1, 102] ∧
      (initWaitGroup demoRuntime () demoCancel ()
        [demoHandler 0 true, demoHandler 1 false, demoHandler 2 true] []).1.2 = false :=
  have hk : FirstFailure () () [demoHandler 0 true, demoHandler 1 false, demoHandler 2 true]
      (translateInterruptToCancel demoRuntime () () []) 1 :=
    ⟨by decide, rfl, fun j hj => by
      have hj0 : j = 0 := by omega
      subst hj0
      rfl⟩
  have h := initWaitGroup_fail_fast demoRuntime () demoCancel ()
    [demoHandler 0 true, demoHandler 1 false, demoHandler 2 true] [] 1 hk
  ⟨hk, h.1.trans rfl, h.2.2.1, h.2.2.2.2.1.trans rfl, h.2.2.2.2.2⟩

/-- C2 (in-order invocation).  The handlers `initWaitGroup` invokes are exactly the prefix
of the list up to and including the first handler that returns false, or the whole list
when none does: each is called once, in list order, with the context and the wait-group
pointer `initWaitGroup` holds, and the world each of them sees is the one its predecessors
left.  When every handler returns true the runner does not call `cancel`. -/
theorem initWaitGroup_in_order (rt : GoRuntime κ ω σ) (ctx : κ) (cancel : σ → σ) (wg : ω)
    (hs : List (BootstrapHandler κ ω σ)) (w : σ) :
    (AllSucceed ctx wg hs (translateInterruptToCancel rt ctx wg w) ∨
        ∃ k, FirstFailure ctx wg hs (translateInterruptToCancel rt ctx wg w) k) ∧
      (AllSucceed ctx wg hs (translateInterruptToCancel rt ctx wg w) →
        (initWaitGroup rt ctx cancel wg hs w).2.calls =
            Call.translateInterruptToCancel ctx wg :: handlerCalls ctx wg 0 hs.length ∧
          (initWaitGroup rt ctx cancel wg hs w).2.world =
            worldBefore ctx wg hs (translateInterruptToCancel rt ctx wg w) hs.length ∧
          cancelCount (initWaitGroup rt ctx cancel wg hs w).2.calls = 0) ∧
      (∀ k, FirstFailure ctx wg hs (translateInterruptToCancel rt ctx wg w) k →
        (initWaitGroup rt ctx cancel wg hs w).2.calls =
            Call.translateInterruptToCancel ctx wg :: handlerCalls ctx wg 0 (k + 1)
              ++ [Call.cancel] ∧
          (initWaitGroup rt ctx cancel wg hs w).2.world =
            cancel (worldBefore ctx wg hs (translateInterruptToCancel rt ctx wg w) (k + 1))) := by
  refine ⟨allSucceed_or_firstFailure ctx wg hs _, ?_, ?_⟩
  · intro hall
    have hloop := handlerLoop_allSucceed ctx wg cancel hs 0
      { world := translateInterruptToCancel rt ctx wg w
        calls := [Call.translateInterruptToCancel ctx wg] } hall
    simp only [initWaitGroup, hloop]
    refine ⟨by simp, trivial, ?_⟩
    rw [cancelCount_append, cancelCount_handlerCalls]
    simp [cancelCount]
  · intro k hk
    have hloop := handlerLoop_firstFailure ctx wg cancel hs 0
      { world := translateInterruptToCancel rt ctx wg w
        calls := [Call.translateInterruptToCancel ctx wg] } k hk
    simp only [initWaitGroup, hloop]
    exact ⟨by simp, trivial⟩

/-- Witness for C2: three handlers that all return true are all invoked, in order, and
`cancel` is not called; the world shows the effects `100, 101, 0, 1, 2`. -/
theorem initWaitGroup_in_order_witness :
    AllSucceed () () [demoHandler 0 true, demoHandler 1 true, demoHandler 2 true]
        (translateInterruptToCancel demoRuntime () () []) ∧
      (initWaitGroup demoRuntime () demoCancel ()
          [demoHandler 0 true, demoHandler 1 true, demoHandler 2 true] []).2.calls =
        [Call.translateInterruptToCancel () (), Call.handler 0 () (), Call.handler 1 () (),
          Call.handler 2 () ()] ∧
      (initWaitGroup demoRuntime () demoCancel ()
          [demoHandler 0 true, demoHandler 1 true, demoHandler 2 true] []).2.world =
        [100, 101, 0, 1, 2] :=
  have hall : AllSucceed () () [demoHandler 0 true, demoHandler 1 true, demoHandler 2 true]
      (translateInterruptToCancel demoRuntime () () []) := by
    intro j hj
    have hj3 : j < 3 := hj
    interval_cases j <;> rfl
  have h := (initWaitGroup_in_order demoRuntime () demoCancel ()
    [demoHandler 0 true, demoHandler 1 true, demoHandler 2 true] []).2.1 hall
  ⟨hall, h.1.trans rfl, h.2.1.trans rfl⟩

/-- C3, as amended.  `initWaitGroup` returns the `startedSuccessfully` flag, and that flag is
false exactly when some invoked handler returned false (there is a first failing handler);
`Run` discards the flag: all it does after `initWaitGroup` is `wg.Wait()` on the wait group
`initWaitGroup` returned, it returns exactly when that call returns, and what it then hands
its caller is `()`, with the calls of `initWaitGroup` followed by the one of `wg.Wait()`
behind it. -/
theorem initWaitGroup_flag_and_Run_result (rt : GoRuntime κ ω σ) (wgWait : ω → σ → Option σ)
    (ctx : κ) (cancel : σ → σ) (wg : ω) (hs : List (BootstrapHandler κ ω σ)) (w : σ) :
    ((initWaitGroup rt ctx cancel wg hs w).1.2 = false ↔
        ∃ k, FirstFailure ctx wg hs (translateInterruptToCancel rt ctx wg w) k) ∧
      (initWaitGroup rt ctx cancel wg hs w).1.1 = wg ∧
      Run rt wgWait ctx cancel wg hs w =
        (wgWait wg (initWaitGroup rt ctx cancel wg hs w).2.world).map fun w1 =>
          ((), { world := w1
                 calls := (initWaitGroup rt ctx cancel wg hs w).2.calls ++ [Call.wait wg] }) := by
  refine ⟨?_, rfl, ?_⟩
  · rcases allSucceed_or_firstFailure ctx wg hs (translateInterruptToCancel rt ctx wg w) with
      hall | ⟨k, hk⟩
    · have hloop := handlerLoop_allSucceed ctx wg cancel hs 0
        { world := translateInterruptToCancel rt ctx wg w
          calls := [Call.translateInterruptToCancel ctx wg] } hall
      simp only [initWaitGroup, hloop]
      constructor
      · intro h; exact Bool.noConfusion h
      · rintro ⟨k, hk⟩; exact absurd hall (not_allSucceed_of_firstFailure hk)
    · have hloop := handlerLoop_firstFailure ctx wg cancel hs 0
        { world := translateInterruptToCancel rt ctx wg w
          calls := [Call.translateInterruptToCancel ctx wg] } k hk
      simp only [initWaitGroup, hloop]
      exact ⟨fun _ => ⟨k, hk⟩, fun _ => trivial⟩
  · exact Run_eq_map rt wgWait ctx cancel wg hs w

end Bootstrap

namespace Models

theorem take_succ_set (c : UInt8) : ∀ (b : Bytes) (i : Nat), i < b.length →
    (b.set i c).take (i + 1) = b.take i ++ [c] := by
  intro b
  induction b with
  | nil => intro i hi; exact absurd hi (by simp)
  | cons x xs ih =>
    intro i hi
    cases i with
    | zero => simp
    | succ i =>
      have hi2 : i < xs.length := by simpa using hi
      simp [ih i hi2]

theorem fillRandom_spec (intn : Nat → Nat → Nat) (charset : Bytes)
    (hsrc : ∀ i n, 0 < n → intn i n < n) (hne : charset ≠ []) :
    ∀ (todo i calls : Nat) (b : Bytes), b.length = i + todo →
      ∃ picks : Bytes, picks.length = todo ∧ (∀ c ∈ picks, c ∈ charset) ∧
        fillRandom intn charset todo i calls b =
          GoResult.returned (b.take i ++ picks, calls + todo) := by
  intro todo
  induction todo with
  | zero =>
    intro i calls b hb
    refine ⟨[], rfl, by simp, ?_⟩
    have hle : b.length ≤ i := by omega
    simp [fillRandom, List.take_of_length_le hle]
  | succ todo ih =>
    intro i calls b hb
    have hpos : 0 < charset.length := List.length_pos.mpr hne
    have hidx : intn calls charset.length < charset.length := hsrc _ _ hpos
    have hlen0 : charset.length ≠ 0 := Nat.pos_iff_ne_zero.mp hpos
    obtain ⟨picks, hpl, hpc, hrun⟩ :=
      ih (i + 1) (calls + 1) (b.set i (charset.get ⟨_, hidx⟩)) (by simp [hb]; omega)
    refine ⟨charset.get ⟨_, hidx⟩ :: picks, by simp [hpl], ?_, ?_⟩
    · intro c hc
      rcases List.mem_cons.mp hc with h | h
      · rw [h]; exact List.get_mem _ _ _
      · exact hpc c h
    · have hi : i < b.length := by omega
      simp only [fillRandom, Intn, hlen0, if_false, List.get?_eq_get hidx, hrun]
      rw [take_succ_set _ b i hi]
      simp [Nat.add_assoc, Nat.add_comm 1 todo]

end Models

namespace Models

theorem factory_spec (intn : Nat → Nat → Nat) (hsrc : ∀ i n, 0 < n → intn i n < n)
    (n : Int) (charset : Bytes) (calls : Nat) (hn : 0 ≤ n) (hne : charset ≠ []) :
    ∃ s : Bytes, factoryRandomFixedLengthString intn n charset calls =
        GoResult.returned (s, calls + n.toNat) ∧
      (s.length : Int) = n ∧ ∀ c ∈ s, c ∈ charset := by
  obtain ⟨picks, hpl, hpc, hrun⟩ := fillRandom_spec intn charset hsrc hne
    (List.replicate n.toNat 0).length 0 calls (List.replicate n.toNat 0) (by simp)
  simp only [List.length_replicate, List.take_zero, List.nil_append] at hrun hpl
  refine ⟨picks, ?_, ?_, hpc⟩
  · have hneg : ¬ n < 0 := not_lt.mpr hn
    simp only [factoryRandomFixedLengthString, hneg, if_false, List.length_replicate, hrun]
  · rw [hpl]
    simp [Int.toNat_of_nonneg hn]

/-- C10 (sample shape).  For every random source that keeps the contract of `Intn` (a result
below the bound), every length `n ≥ 0` and every non-empty charset,
`factoryRandomFixedLengthString` returns, without an index out of range, a string of
exactly `n` bytes, each taken from the charset.  The alphanumeric charset has 62 bytes.
When the key file is read, `NewSampleData` builds a `Description` of 128 and a `Seed` of 64
bytes of that charset, and returns them with a nil error as soon as `ed25519.Sign` accepts
the decoded key (64 bytes); when the key file cannot be read it returns the zero
`SampleData` with that error. -/
theorem sample_shape (lib : Libs) (hsrc : ∀ i n, 0 < n → lib.intn i n < n) :
    (∀ (n : Int) (charset : Bytes) (calls : Nat), 0 ≤ n → charset ≠ [] →
        ∃ s : Bytes, factoryRandomFixedLengthString lib.intn n charset calls =
            GoResult.returned (s, calls + n.toNat) ∧
          (s.length : Int) = n ∧ ∀ c ∈ s, c ∈ charset) ∧
      (goString alphanumericCharset).length = 62 ∧
      (∀ (cfg : KeyInfo) (calls : Nat) (key : Bytes), lib.readFile cfg.Path = Except.ok key →
        ∃ d s : Bytes, d.length = 128 ∧ s.length = 64 ∧
          (∀ c ∈ d, c ∈ goString alphanumericCharset) ∧
          (∀ c ∈ s, c ∈ goString alphanumericCharset) ∧
          NewSampleData lib cfg calls =
            if (decodeKey lib key).length = 64 then
              GoResult.returned
                (({ Description := d, Seed := s,
                    Signature := lib.sprintfHex (lib.sign (decodeKey lib key) s) }, none),
                  calls + 192)
            else GoResult.panicked "ed25519: bad private key length") ∧
      (∀ (cfg : KeyInfo) (calls : Nat) (err : String),
        lib.readFile cfg.Path = Except.error err →
        NewSampleData lib cfg calls = GoResult.returned ((SampleData.zero, some err), calls)) := by
  have hcs : (goString alphanumericCharset).length = 62 := by decide
  have hne : goString alphanumericCharset ≠ [] := by
    intro h
    rw [h] at hcs
    exact absurd hcs (by decide)
  refine ⟨fun n charset calls hn hc => factory_spec lib.intn hsrc n charset calls hn hc,
    hcs, ?_, ?_⟩
  · intro cfg calls key hread
    obtain ⟨d, hd, hdl, hdc⟩ :=
      factory_spec lib.intn hsrc 128 (goString alphanumericCharset) calls (by decide) hne
    obtain ⟨s, hs, hsl, hsc⟩ :=
      factory_spec lib.intn hsrc 64 (goString alphanumericCharset) (calls + 128)
        (by decide) hne
    refine ⟨d, s, by exact_mod_cast hdl, by exact_mod_cast hsl, hdc, hsc, ?_⟩
    have hd2 : factoryRandomFixedLengthString lib.intn 128 (goString alphanumericCharset) calls
        = GoResult.returned (d, calls + 128) := hd
    have hs2 : factoryRandomFixedLengthString lib.intn 64 (goString alphanumericCharset)
        (calls + 128) = GoResult.returned (s, calls + 192) := hs
    by_cases hk : (decodeKey lib key).length = 64
    · simp only [NewSampleData, hread, hd2, hs2, ed25519Sign, hk, if_true]
    · simp only [NewSampleData, hread, hd2, hs2, ed25519Sign, hk, if_false]
  · intro cfg calls err hread
    simp only [NewSampleData, hread]

/-- Witness for C10: with the source `(7 * i + 3) % n` and a readable 128-byte key file,
the properties hold; for a path that cannot be read the zero value and the error come
back. -/
theorem sample_shape_witness :
    (∀ i n, 0 < n → demoLibs.intn i n < n) ∧
      (∃ d s : Bytes, d.length = 128 ∧ s.length = 64 ∧
        (∀ c ∈ d, c ∈ goString alphanumericCharset) ∧
        (∀ c ∈ s, c ∈ goString alphanumericCharset) ∧
        NewSampleData demoLibs { Path := "key" } 0 =
          GoResult.returned
            (({ Description := d, Seed := s,
                Signature := demoLibs.sprintfHex
                  (demoLibs.sign (decodeKey demoLibs (List.replicate 128 97)) s) }, none),
              192)) ∧
      NewSampleData demoLibs { Path := "nokey" } 5 =
        GoResult.returned ((SampleData.zero, some "no such file"), 5) :=
  have hsrc : ∀ i n, 0 < n → demoLibs.intn i n < n := fun i _ hn => Nat.mod_lt (7 * i + 3) hn
  have h := sample_shape demoLibs hsrc
  have hkey : demoLibs.readFile "key" = Except.ok (List.replicate 128 97) := by
    simp [demoLibs]
  have hno : demoLibs.readFile "nokey" = Except.error "no such file" := by
    simp [demoLibs]
  have hlen : (decodeKey demoLibs (List.replicate 128 97)).length = 64 := by
    simp [decodeKey, demoLibs]
  ⟨hsrc,
    (h.2.2.1 { Path := "key" } 0 (List.replicate 128 97) hkey).imp fun _ hd =>
      hd.imp fun _ hs =>
        ⟨hs.1, hs.2.1, hs.2.2.1, hs.2.2.2.1, by
          have := hs.2.2.2.2
          rw [if_pos hlen] at this
          simpa using this⟩,
    h.2.2.2 { Path := "nokey" } 5 "no such file" hno⟩

end Models

namespace Pipeline

open Models

/-! ### Executions -/

theorem exec_nil (env : Env) (s : Sys) : exec env [] s = s := rfl

theorem exec_cons (env : Env) (l : Label) (ls : List Label) (s : Sys) :
    exec env (l :: ls) s = exec env ls (next env s l) := rfl

theorem exec_append (env : Env) (a b : List Label) (s : Sys) :
    exec env (a ++ b) s = exec env b (exec env a s) := by
  simp [exec, List.foldl_append]

/-- A property that holds of `s` and survives every move holds after every schedule. -/
theorem exec_preserves (env : Env) (P : Sys → Prop)
    (hstep : ∀ s l, P s → P (next env s l)) :
    ∀ (sched : List Label) (s : Sys), P s → P (exec env sched s) := by
  intro sched
  induction sched with
  | nil => intro s hs; exact hs
  | cons l ls ih => intro s hs; exact ih _ (hstep s l hs)

theorem evs_cons (t t1 : Task) (e : Event) (log : List (Task × Event)) :
    evs t ((t1, e) :: log) = if t1 = t then e :: evs t log else evs t log := by
  by_cases h : t1 = t <;> simp [evs, List.filter_cons, h]

theorem eventsOf_emit (s : Sys) (t t1 : Task) (e : Event) :
    (s.emit t1 e).eventsOf t = if t1 = t then s.eventsOf t ++ [e] else s.eventsOf t := by
  by_cases h : t1 = t <;> simp [Sys.eventsOf, Sys.emit, evs_cons, h]

/-- The runner of Part 1, run on the initial state with `CreateLoop` as its only handler,
leaves the state the machine of Part 3 reaches when the calling goroutine runs up to
`wg.Wait()` (the machine also keeps the caller's program counter), and it reports a
successful start without calling `cancel`. -/
theorem startup_agrees (env : Env) :
    { (Bootstrap.initWaitGroup sysRuntime () sysCancel () [createLoopHandler]
          Sys.init).2.world with mpc := MainPc.wait } =
        exec env startSchedule Sys.init ∧
      (Bootstrap.initWaitGroup sysRuntime () sysCancel () [createLoopHandler] Sys.init).1.2 =
        true ∧
      (Bootstrap.initWaitGroup sysRuntime () sysCancel () [createLoopHandler] Sys.init).2.calls =
        [Bootstrap.Call.translateInterruptToCancel () (), Bootstrap.Call.handler 0 () ()] :=
  ⟨rfl, rfl, rfl⟩

/-- To relate a state to its successor it is enough to do so for each kind of move. -/
theorem next_rel (env : Env) (R : Sys → Sys → Prop) (hrefl : ∀ s, R s s)
    (hmain : ∀ s t, stepMain s = some t → R s t)
    (hlistener : ∀ s t, stepListener s = some t → R s t)
    (hworker : ∀ s t, s.crashed = false → stepWorker env s = some t → R s t)
    (hwatcher : ∀ s t, stepWatcher s = some t → R s t)
    (hsignal : ∀ s t, stepSignal s = some t → R s t)
    (hreceive : ∀ s t, stepReceive s = some t → R s t)
    (hcancel : ∀ s t, stepOutsideCancel s = some t → R s t) :
    ∀ s l, R s (next env s l) := by
  intro s l
  unfold next step
  by_cases hc : s.crashed = true
  · simp only [hc, if_true, Option.getD_none]
    exact hrefl s
  · have hc2 : s.crashed = false := by simpa using hc
    simp only [hc2, Bool.false_eq_true, if_false]
    cases l
    · cases h : stepMain s with
      | none => exact hrefl s
      | some t => exact hmain s t h
    · cases h : stepListener s with
      | none => exact hrefl s
      | some t => exact hlistener s t h
    · cases h : stepWorker env s with
      | none => exact hrefl s
      | some t => exact hworker s t hc2 h
    · cases h : stepWatcher s with
      | none => exact hrefl s
      | some t => exact hwatcher s t h
    · cases h : stepSignal s with
      | none => exact hrefl s
      | some t => exact hsignal s t h
    · cases h : stepReceive s with
      | none => exact hrefl s
      | some t => exact hreceive s t h
    · cases h : stepOutsideCancel s with
      | none => exact hrefl s
      | some t => exact hcancel s t h

end Pipeline

namespace Pipeline
open Models

theorem links_init : Links Sys.init := by
  constructor <;> simp [Sys.init, mainIndex, watcherIndex, workerClosed]

set_option maxHeartbeats 1000000 in
theorem links_stepMain (s t : Sys) (hs : stepMain s = some t) (inv : Links s) : Links t := by
  obtain ⟨h1, h2, h3, h4, h5, h6, h7⟩ := inv
  unfold stepMain at hs
  split at hs <;> (try split at hs) <;> simp only [Option.some.injEq, reduceCtorEq] at hs <;>
    subst hs <;> exact
    ⟨by first | assumption | (clear h2 h3 h4 h5 h6 h7; simp_all [Sys.emit, mainIndex]),
     by first | assumption | (clear h1 h3 h4 h5 h6 h7; simp_all [Sys.emit, mainIndex]),
     by first | assumption | (clear h1 h2 h4 h5 h6 h7; simp_all [Sys.emit, mainIndex]),
     by first | assumption | (clear h1 h3 h5 h6 h7; simp_all [Sys.emit, mainIndex]),
     by first | assumption | (clear h1 h2 h4 h6 h7; simp_all [Sys.emit, mainIndex, watcherIndex]),
     by first | assumption | (clear h1 h3 h4 h5 h7; simp_all [Sys.emit, mainIndex, workerClosed]),
     by first | assumption | (clear h1 h2 h4 h5 h6; simp_all [Sys.emit, mainIndex, watcherIndex])⟩

set_option maxHeartbeats 1000000 in
theorem links_stepListener (s t : Sys) (hs : stepListener s = some t) (inv : Links s) : Links t := by
  obtain ⟨h1, h2, h3, h4, h5, h6, h7⟩ := inv
  unfold stepListener at hs
  split at hs <;> (try split at hs) <;> simp only [Option.some.injEq, reduceCtorEq] at hs <;>
    subst hs <;> exact
    ⟨by first | assumption | (clear h2 h3 h4 h5 h6 h7; simp_all [Sys.emit, mainIndex]),
     by first | assumption | (clear h1 h3 h4 h5 h6 h7; simp_all [Sys.emit, mainIndex]),
     by first | assumption | (clear h1 h2 h4 h5 h6 h7; simp_all [Sys.emit, mainIndex]),
     by first | assumption | (clear h1 h3 h5 h6 h7; simp_all [Sys.emit, mainIndex]),
     by first | assumption | (clear h1 h2 h4 h6 h7; simp_all [Sys.emit, mainIndex, watcherIndex]),
     by first | assumption | (clear h1 h3 h4 h5 h7; simp_all [Sys.emit, mainIndex, workerClosed]),
     by first | assumption | (clear h1 h2 h4 h5 h6; simp_all [Sys.emit, mainIndex, watcherIndex])⟩

set_option maxHeartbeats 1000000 in
theorem links_stepWorker (env : Env) (s t : Sys) (hs : stepWorker env s = some t) (inv : Links s) : Links t := by
  obtain ⟨h1, h2, h3, h4, h5, h6, h7⟩ := inv
  unfold stepWorker at hs
  split at hs <;> (try split at hs) <;> simp only [Option.some.injEq, reduceCtorEq] at hs <;>
    subst hs <;> exact
    ⟨by first | assumption | (clear h2 h3 h4 h5 h6 h7; simp_all [Sys.emit, mainIndex]),
     by first | assumption | (clear h1 h3 h4 h5 h6 h7; simp_all [Sys.emit, mainIndex]),
     by first | assumption | (clear h1 h2 h4 h5 h6 h7; simp_all [Sys.emit, mainIndex]),
     by first | assumption | (clear h1 h3 h5 h6 h7; simp_all [Sys.emit, mainIndex]),
     by first | assumption | (clear h1 h2 h4 h6 h7; simp_all [Sys.emit, mainIndex, watcherIndex]),
     by first | assumption | (clear h1 h3 h4 h5 h7; simp_all [Sys.emit, mainIndex, workerClosed]),
     by first | assumption | (clear h1 h2 h4 h5 h6; simp_all [Sys.emit, mainIndex, watcherIndex])⟩

set_option maxHeartbeats 1000000 in
theorem links_stepWatcher (s t : Sys) (hs : stepWatcher s = some t) (inv : Links s) : Links t := by
  obtain ⟨h1, h2, h3, h4, h5, h6, h7⟩ := inv
  unfold stepWatcher at hs
  split at hs <;> (try split at hs) <;> simp only [Option.some.injEq, reduceCtorEq] at hs <;>
    subst hs <;> exact
    ⟨by first | assumption | (clear h2 h3 h4 h5 h6 h7; simp_all [Sys.emit, mainIndex]),
     by first | assumption | (clear h1 h3 h4 h5 h6 h7; simp_all [Sys.emit, mainIndex]),
     by first | assumption | (clear h1 h2 h4 h5 h6 h7; simp_all [Sys.emit, mainIndex]),
     by first | assumption | (clear h1 h3 h5 h6 h7; simp_all [Sys.emit, mainIndex]),
     by first | assumption | (clear h1 h2 h4 h6 h7; simp_all [Sys.emit, mainIndex, watcherIndex]),
     by first | assumption | (clear h1 h3 h4 h5 h7; simp_all [Sys.emit, mainIndex, workerClosed]),
     by first | assumption | (clear h1 h2 h4 h5 h6; simp_all [Sys.emit, mainIndex, watcherIndex])⟩

set_option maxHeartbeats 1000000 in
theorem links_stepSignal (s t : Sys) (hs : stepSignal s = some t) (inv : Links s) : Links t := by
  obtain ⟨h1, h2, h3, h4, h5, h6, h7⟩ := inv
  unfold stepSignal at hs
  split at hs <;> (try split at hs) <;> simp only [Option.some.injEq, reduceCtorEq] at hs <;>
    subst hs <;> exact
    ⟨by first | assumption | (clear h2 h3 h4 h5 h6 h7; simp_all [Sys.emit, mainIndex]),
     by first | assumption | (clear h1 h3 h4 h5 h6 h7; simp_all [Sys.emit, mainIndex]),
     by first | assumption | (clear h1 h2 h4 h5 h6 h7; simp_all [Sys.emit, mainIndex]),
     by first | assumption | (clear h1 h3 h5 h6 h7; simp_all [Sys.emit, mainIndex]),
     by first | assumption | (clear h1 h2 h4 h6 h7; simp_all [Sys.emit, mainIndex, watcherIndex]),
     by first | assumption | (clear h1 h3 h4 h5 h7; simp_all [Sys.emit, mainIndex, workerClosed]),
     by first | assumption | (clear h1 h2 h4 h5 h6; simp_all [Sys.emit, mainIndex, watcherIndex])⟩

set_option maxHeartbeats 1000000 in
theorem links_stepReceive (s t : Sys) (hs : stepReceive s = some t) (inv : Links s) : Links t := by
  obtain ⟨h1, h2, h3, h4, h5, h6, h7⟩ := inv
  unfold stepReceive at hs
  split at hs <;> (try split at hs) <;> simp only [Option.some.injEq, reduceCtorEq] at hs <;>
    subst hs <;> exact
    ⟨by first | assumption | (clear h2 h3 h4 h5 h6 h7; simp_all [Sys.emit, mainIndex]),
     by first | assumption | (clear h1 h3 h4 h5 h6 h7; simp_all [Sys.emit, mainIndex]),
     by first | assumption | (clear h1 h2 h4 h5 h6 h7; simp_all [Sys.emit, mainIndex]),
     by first | assumption | (clear h1 h3 h5 h6 h7; simp_all [Sys.emit, mainIndex]),
     by first | assumption | (clear h1 h2 h4 h6 h7; simp_all [Sys.emit, mainIndex, watcherIndex]),
     by first | assumption | (clear h1 h3 h4 h5 h7; simp_all [Sys.emit, mainIndex, workerClosed]),
     by first | assumption | (clear h1 h2 h4 h5 h6; simp_all [Sys.emit, mainIndex, watcherIndex])⟩

set_option maxHeartbeats 1000000 in
theorem links_stepOutsideCancel (s t : Sys) (hs : stepOutsideCancel s = some t) (inv : Links s) : Links t := by
  obtain ⟨h1, h2, h3, h4, h5, h6, h7⟩ := inv
  unfold stepOutsideCancel at hs
  simp only [Option.some.injEq] at hs
  subst hs
  exact
    ⟨by first | assumption | (clear h2 h3 h4 h5 h6 h7; simp_all [Sys.emit, mainIndex]),
     by first | assumption | (clear h1 h3 h4 h5 h6 h7; simp_all [Sys.emit, mainIndex]),
     by first | assumption | (clear h1 h2 h4 h5 h6 h7; simp_all [Sys.emit, mainIndex]),
     by first | assumption | (clear h1 h3 h5 h6 h7; simp_all [Sys.emit, mainIndex]),
     by first | assumption | (clear h1 h2 h4 h6 h7; simp_all [Sys.emit, mainIndex, watcherIndex]),
     by first | assumption | (clear h1 h3 h4 h5 h7; simp_all [Sys.emit, mainIndex, workerClosed]),
     by first | assumption | (clear h1 h2 h4 h5 h6; simp_all [Sys.emit, mainIndex, watcherIndex])⟩

theorem links_next (env : Env) (s : Sys) (l : Label) : Links s → Links (next env s l) :=
  next_rel env (fun s t => Links s → Links t) (fun _ h => h) links_stepMain links_stepListener
    (fun s t _ => links_stepWorker env s t) links_stepWatcher links_stepSignal links_stepReceive
    links_stepOutsideCancel s l

/-- The relations between program counters and flags hold in every reachable state. -/
theorem links_exec (env : Env) (sched : List Label) : Links (exec env sched Sys.init) :=
  exec_preserves env Links (links_next env) sched Sys.init links_init

end Pipeline

namespace Pipeline
open Models

theorem wg_frame (s t : Sys) (hm : t.mpc = s.mpc) (hl : t.lpc.gone = s.lpc.gone)
    (hw : t.wpc.gone = s.wpc.gone) (hh : t.hpc.gone = s.hpc.gone) (hwg : t.wg = s.wg)
    (h : s.wg = ticket s 0 s.lpc.gone + ticket s 2 s.wpc.gone + ticket s 4 s.hpc.gone) :
    t.wg = ticket t 0 t.lpc.gone + ticket t 2 t.wpc.gone + ticket t 4 t.hpc.gone := by
  simp only [ticket] at h ⊢
  rw [hm, hl, hw, hh, hwg]
  exact h

theorem wg_listener_exit (s t : Sys) (hm : t.mpc = s.mpc) (hw : t.wpc.gone = s.wpc.gone)
    (hh : t.hpc.gone = s.hpc.gone) (h0 : s.lpc.gone = false) (h1 : t.lpc.gone = true)
    (hreg : 0 < mainIndex s.mpc) (hwg : t.wg = s.wg - 1)
    (h : s.wg = ticket s 0 s.lpc.gone + ticket s 2 s.wpc.gone + ticket s 4 s.hpc.gone) :
    t.wg = ticket t 0 t.lpc.gone + ticket t 2 t.wpc.gone + ticket t 4 t.hpc.gone := by
  simp only [ticket] at h ⊢
  rw [hm, hw, hh, h1, hwg, h]
  simp [h0, hreg]
  omega

theorem wg_worker_exit (s t : Sys) (hm : t.mpc = s.mpc) (hl : t.lpc.gone = s.lpc.gone)
    (hh : t.hpc.gone = s.hpc.gone) (h0 : s.wpc.gone = false) (h1 : t.wpc.gone = true)
    (hreg : 2 < mainIndex s.mpc) (hwg : t.wg = s.wg - 1)
    (h : s.wg = ticket s 0 s.lpc.gone + ticket s 2 s.wpc.gone + ticket s 4 s.hpc.gone) :
    t.wg = ticket t 0 t.lpc.gone + ticket t 2 t.wpc.gone + ticket t 4 t.hpc.gone := by
  simp only [ticket] at h ⊢
  rw [hm, hl, hh, h1, hwg, h]
  simp [h0, hreg]
  omega

theorem wg_watcher_exit (s t : Sys) (hm : t.mpc = s.mpc) (hl : t.lpc.gone = s.lpc.gone)
    (hw : t.wpc.gone = s.wpc.gone) (h0 : s.hpc.gone = false) (h1 : t.hpc.gone = true)
    (hreg : 4 < mainIndex s.mpc) (hwg : t.wg = s.wg - 1)
    (h : s.wg = ticket s 0 s.lpc.gone + ticket s 2 s.wpc.gone + ticket s 4 s.hpc.gone) :
    t.wg = ticket t 0 t.lpc.gone + ticket t 2 t.wpc.gone + ticket t 4 t.hpc.gone := by
  simp only [ticket] at h ⊢
  rw [hm, hl, hw, h1, hwg, h]
  simp [h0, hreg]

theorem traces_init : Traces Sys.init := by
  constructor <;>
    simp [Sys.init, Sys.eventsOf, evs, mainIndex, watcherIndex, listenerTraces, workerTail,
      ticket, mainRun, watcherRun]

set_option maxHeartbeats 2000000 in
theorem traces_stepMain (s t : Sys) (hs : stepMain s = some t) (lk : Links s)
    (inv : Traces s) : Traces t := by
  obtain ⟨k1, k2, k3, -, -, -, -⟩ := lk
  obtain ⟨h1, h2, h3, h4, h5, h6, h7⟩ := inv
  cases hm : s.mpc with
  | returned => simp [stepMain, hm] at hs
  | wait =>
    simp only [stepMain, hm] at hs
    split at hs
    · rename_i hwg
      simp only [Option.some.injEq] at hs
      subst hs
      clear hwg
      exact
    ⟨by
      first
        | assumption
        | (clear k1 k2 k3 h2 h3 h4 h5 h6 h7; simp_all [Sys.emit, Sys.eventsOf, evs_cons, mainIndex, mainRun]; done)
        | (clear k1 k2 k3 h2 h3 h4 h5 h6 h7; simpa [Sys.emit, Sys.eventsOf, evs_cons, mainIndex, mainRun] using h1),
     by
      first
        | assumption
        | (clear k2 k3 h1 h3 h4 h5 h6 h7; simp_all [Sys.emit, Sys.eventsOf, evs_cons, mainIndex, listenerTraces, listenerOnSignal, listenerOnCtxDone]; done)
        | (clear k2 k3 h1 h3 h4 h5 h6 h7; simpa [Sys.emit, Sys.eventsOf, evs_cons, mainIndex, listenerTraces, listenerOnSignal, listenerOnCtxDone] using h2)
        | (clear k2 k3 h1 h3 h4 h5 h6 h7; simp_all [Sys.emit, Sys.eventsOf, evs_cons, mainIndex, listenerTraces, listenerOnSignal, listenerOnCtxDone]; rcases h2 with h | h <;> simp_all),
     by
      first
        | assumption
        | (clear k1 k2 h1 h2 h4 h5 h6 h7; simp_all [Sys.emit, Sys.eventsOf, evs_cons, mainIndex, watcherIndex, watcherRun]; done)
        | (clear k1 k2 h1 h2 h4 h5 h6 h7; simpa [Sys.emit, Sys.eventsOf, evs_cons, mainIndex, watcherIndex, watcherRun] using h3),
     by
      first
        | assumption
        | (clear k1 k3 h1 h2 h3 h5 h6 h7; simp_all [Sys.emit, Sys.eventsOf, evs_cons, mainIndex, workerTail]; done)
        | (clear k1 k3 h1 h2 h3 h5 h6 h7; simpa [Sys.emit, Sys.eventsOf, evs_cons, mainIndex, workerTail] using h4),
     by
      first
        | assumption
        | (clear k1 k3 h1 h2 h3 h4 h6 h7; simp_all [Sys.emit, Sys.eventsOf, evs_cons, mainIndex, workerTail, Event.inLoop]; done)
        | (clear k1 k3 h1 h2 h3 h4 h6 h7; simpa [Sys.emit, Sys.eventsOf, evs_cons, mainIndex, workerTail, Event.inLoop] using h5),
     by
      first
        | assumption
        | (clear k1 k2 k3 h1 h2 h3 h4 h5 h7; simp_all [Sys.emit, Sys.eventsOf, evs_cons]; done)
        | (clear k1 k2 k3 h1 h2 h3 h4 h5 h7; simpa [Sys.emit, Sys.eventsOf, evs_cons] using h6),
     by
      clear h1 h2 h3 h4 h5 h6
      simp [Sys.emit, ticket, mainIndex, hm] at h7 ⊢
      exact h7⟩
    · simp at hs
  | _ =>
    simp only [stepMain, hm, Option.some.injEq] at hs
    subst hs
    exact
    ⟨by
      first
        | assumption
        | (clear k1 k2 k3 h2 h3 h4 h5 h6 h7; simp_all [Sys.emit, Sys.eventsOf, evs_cons, mainIndex, mainRun]; done)
        | (clear k1 k2 k3 h2 h3 h4 h5 h6 h7; simpa [Sys.emit, Sys.eventsOf, evs_cons, mainIndex, mainRun] using h1),
     by
      first
        | assumption
        | (clear k2 k3 h1 h3 h4 h5 h6 h7; simp_all [Sys.emit, Sys.eventsOf, evs_cons, mainIndex, listenerTraces, listenerOnSignal, listenerOnCtxDone]; done)
        | (clear k2 k3 h1 h3 h4 h5 h6 h7; simpa [Sys.emit, Sys.eventsOf, evs_cons, mainIndex, listenerTraces, listenerOnSignal, listenerOnCtxDone] using h2)
        | (clear k2 k3 h1 h3 h4 h5 h6 h7; simp_all [Sys.emit, Sys.eventsOf, evs_cons, mainIndex, listenerTraces, listenerOnSignal, listenerOnCtxDone]; rcases h2 with h | h <;> simp_all),
     by
      first
        | assumption
        | (clear k1 k2 h1 h2 h4 h5 h6 h7; simp_all [Sys.emit, Sys.eventsOf, evs_cons, mainIndex, watcherIndex, watcherRun]; done)
        | (clear k1 k2 h1 h2 h4 h5 h6 h7; simpa [Sys.emit, Sys.eventsOf, evs_cons, mainIndex, watcherIndex, watcherRun] using h3),
     by
      first
        | assumption
        | (clear k1 k3 h1 h2 h3 h5 h6 h7; simp_all [Sys.emit, Sys.eventsOf, evs_cons, mainIndex, workerTail]; done)
        | (clear k1 k3 h1 h2 h3 h5 h6 h7; simpa [Sys.emit, Sys.eventsOf, evs_cons, mainIndex, workerTail] using h4),
     by
      first
        | assumption
        | (clear k1 k3 h1 h2 h3 h4 h6 h7; simp_all [Sys.emit, Sys.eventsOf, evs_cons, mainIndex, workerTail, Event.inLoop]; done)
        | (clear k1 k3 h1 h2 h3 h4 h6 h7; simpa [Sys.emit, Sys.eventsOf, evs_cons, mainIndex, workerTail, Event.inLoop] using h5),
     by
      first
        | assumption
        | (clear k1 k2 k3 h1 h2 h3 h4 h5 h7; simp_all [Sys.emit, Sys.eventsOf, evs_cons]; done)
        | (clear k1 k2 k3 h1 h2 h3 h4 h5 h7; simpa [Sys.emit, Sys.eventsOf, evs_cons] using h6),
     by
      first
        | assumption
        | (clear h1 h2 h3 h4 h5 h6
           simp only [Sys.emit, ticket] at h7 ⊢
           simp_all [mainIndex, ListenerPc.gone, WorkerPc.gone, WatcherPc.gone]
           done)
        | (clear h1 h2 h3 h4 h5 h6
           simp only [Sys.emit, ticket] at h7 ⊢
           simp_all [mainIndex, ListenerPc.gone, WorkerPc.gone, WatcherPc.gone]
           split_ifs at h7 ⊢ <;> omega)⟩

set_option maxHeartbeats 2000000 in
theorem traces_stepListener (s t : Sys) (hs : stepListener s = some t) (lk : Links s)
    (inv : Traces s) : Traces t := by
  obtain ⟨k1, k2, k3, -, -, -, -⟩ := lk
  obtain ⟨h1, h2, h3, h4, h5, h6, h7⟩ := inv
  unfold stepListener at hs
  split at hs <;> (try split at hs) <;> simp only [Option.some.injEq, reduceCtorEq] at hs <;>
    subst hs <;> exact
    ⟨by
      first
        | assumption
        | (clear k1 k2 k3 h2 h3 h4 h5 h6 h7; simp_all [Sys.emit, Sys.eventsOf, evs_cons, mainIndex, mainRun]; done)
        | (clear k1 k2 k3 h2 h3 h4 h5 h6 h7; simpa [Sys.emit, Sys.eventsOf, evs_cons, mainIndex, mainRun] using h1),
     by
      first
        | assumption
        | (clear k2 k3 h1 h3 h4 h5 h6 h7; simp_all [Sys.emit, Sys.eventsOf, evs_cons, mainIndex, listenerTraces, listenerOnSignal, listenerOnCtxDone]; done)
        | (clear k2 k3 h1 h3 h4 h5 h6 h7; simpa [Sys.emit, Sys.eventsOf, evs_cons, mainIndex, listenerTraces, listenerOnSignal, listenerOnCtxDone] using h2)
        | (clear k2 k3 h1 h3 h4 h5 h6 h7; simp_all [Sys.emit, Sys.eventsOf, evs_cons, mainIndex, listenerTraces, listenerOnSignal, listenerOnCtxDone]; rcases h2 with h | h <;> simp_all),
     by
      first
        | assumption
        | (clear k1 k2 h1 h2 h4 h5 h6 h7; simp_all [Sys.emit, Sys.eventsOf, evs_cons, mainIndex, watcherIndex, watcherRun]; done)
        | (clear k1 k2 h1 h2 h4 h5 h6 h7; simpa [Sys.emit, Sys.eventsOf, evs_cons, mainIndex, watcherIndex, watcherRun] using h3),
     by
      first
        | assumption
        | (clear k1 k3 h1 h2 h3 h5 h6 h7; simp_all [Sys.emit, Sys.eventsOf, evs_cons, mainIndex, workerTail]; done)
        | (clear k1 k3 h1 h2 h3 h5 h6 h7; simpa [Sys.emit, Sys.eventsOf, evs_cons, mainIndex, workerTail] using h4),
     by
      first
        | assumption
        | (clear k1 k3 h1 h2 h3 h4 h6 h7; simp_all [Sys.emit, Sys.eventsOf, evs_cons, mainIndex, workerTail, Event.inLoop]; done)
        | (clear k1 k3 h1 h2 h3 h4 h6 h7; simpa [Sys.emit, Sys.eventsOf, evs_cons, mainIndex, workerTail, Event.inLoop] using h5),
     by
      first
        | assumption
        | (clear k1 k2 k3 h1 h2 h3 h4 h5 h7; simp_all [Sys.emit, Sys.eventsOf, evs_cons]; done)
        | (clear k1 k2 k3 h1 h2 h3 h4 h5 h7; simpa [Sys.emit, Sys.eventsOf, evs_cons] using h6),
     by
      clear h1 h2 h3 h4 h5 h6
      first
        | assumption
        | exact wg_frame s _ rfl
            (by first | rfl | (clear h7; simp_all [Sys.emit, ListenerPc.gone]))
            (by first | rfl | (clear h7; simp_all [Sys.emit, WorkerPc.gone]))
            (by first | rfl | (clear h7; simp_all [Sys.emit, WatcherPc.gone])) rfl h7
        | exact wg_listener_exit s _ rfl rfl rfl (by clear h7; simp_all [Sys.emit, ListenerPc.gone])
            (by simp [Sys.emit, ListenerPc.gone]) (by clear h7; simp_all; try omega) rfl h7
        | exact wg_worker_exit s _ rfl rfl rfl (by clear h7; simp_all [Sys.emit, WorkerPc.gone])
            (by simp [Sys.emit, WorkerPc.gone]) (by clear h7; simp_all; try omega) rfl h7
        | exact wg_watcher_exit s _ rfl rfl rfl (by clear h7; simp_all [Sys.emit, WatcherPc.gone])
            (by simp [Sys.emit, WatcherPc.gone]) (by clear h7; simp_all; try omega) rfl h7⟩

set_option maxHeartbeats 2000000 in
theorem traces_stepWorker (env : Env) (s t : Sys) (hs : stepWorker env s = some t) (lk : Links s)
    (inv : Traces s) : Traces t := by
  obtain ⟨k1, k2, k3, -, -, -, -⟩ := lk
  obtain ⟨h1, h2, h3, h4, h5, h6, h7⟩ := inv
  unfold stepWorker at hs
  split at hs <;> (try split at hs) <;> simp only [Option.some.injEq, reduceCtorEq] at hs <;>
    subst hs <;> exact
    ⟨by
      first
        | assumption
        | (clear k1 k2 k3 h2 h3 h4 h5 h6 h7; simp_all [Sys.emit, Sys.eventsOf, evs_cons, mainIndex, mainRun]; done)
        | (clear k1 k2 k3 h2 h3 h4 h5 h6 h7; simpa [Sys.emit, Sys.eventsOf, evs_cons, mainIndex, mainRun] using h1),
     by
      first
        | assumption
        | (clear k2 k3 h1 h3 h4 h5 h6 h7; simp_all [Sys.emit, Sys.eventsOf, evs_cons, mainIndex, listenerTraces, listenerOnSignal, listenerOnCtxDone]; done)
        | (clear k2 k3 h1 h3 h4 h5 h6 h7; simpa [Sys.emit, Sys.eventsOf, evs_cons, mainIndex, listenerTraces, listenerOnSignal, listenerOnCtxDone] using h2)
        | (clear k2 k3 h1 h3 h4 h5 h6 h7; simp_all [Sys.emit, Sys.eventsOf, evs_cons, mainIndex, listenerTraces, listenerOnSignal, listenerOnCtxDone]; rcases h2 with h | h <;> simp_all),
     by
      first
        | assumption
        | (clear k1 k2 h1 h2 h4 h5 h6 h7; simp_all [Sys.emit, Sys.eventsOf, evs_cons, mainIndex, watcherIndex, watcherRun]; done)
        | (clear k1 k2 h1 h2 h4 h5 h6 h7; simpa [Sys.emit, Sys.eventsOf, evs_cons, mainIndex, watcherIndex, watcherRun] using h3),
     by
      first
        | assumption
        | (clear k1 k3 h1 h2 h3 h5 h6 h7; simp_all [Sys.emit, Sys.eventsOf, evs_cons, mainIndex, workerTail]; done)
        | (clear k1 k3 h1 h2 h3 h5 h6 h7; simpa [Sys.emit, Sys.eventsOf, evs_cons, mainIndex, workerTail] using h4),
     by
      first
        | assumption
        | (clear k1 k3 h1 h2 h3 h4 h6 h7; simp_all [Sys.emit, Sys.eventsOf, evs_cons, mainIndex, workerTail, Event.inLoop]; done)
        | (clear k1 k3 h1 h2 h3 h4 h6 h7; simpa [Sys.emit, Sys.eventsOf, evs_cons, mainIndex, workerTail, Event.inLoop] using h5),
     by
      first
        | assumption
        | (clear k1 k2 k3 h1 h2 h3 h4 h5 h7; simp_all [Sys.emit, Sys.eventsOf, evs_cons]; done)
        | (clear k1 k2 k3 h1 h2 h3 h4 h5 h7; simpa [Sys.emit, Sys.eventsOf, evs_cons] using h6),
     by
      clear h1 h2 h3 h4 h5 h6
      first
        | assumption
        | exact wg_frame s _ rfl
            (by first | rfl | (clear h7; simp_all [Sys.emit, ListenerPc.gone]))
            (by first | rfl | (clear h7; simp_all [Sys.emit, WorkerPc.gone]))
            (by first | rfl | (clear h7; simp_all [Sys.emit, WatcherPc.gone])) rfl h7
        | exact wg_listener_exit s _ rfl rfl rfl (by clear h7; simp_all [Sys.emit, ListenerPc.gone])
            (by simp [Sys.emit, ListenerPc.gone]) (by clear h7; simp_all; try omega) rfl h7
        | exact wg_worker_exit s _ rfl rfl rfl (by clear h7; simp_all [Sys.emit, WorkerPc.gone])
            (by simp [Sys.emit, WorkerPc.gone]) (by clear h7; simp_all; try omega) rfl h7
        | exact wg_watcher_exit s _ rfl rfl rfl (by clear h7; simp_all [Sys.emit, WatcherPc.gone])
            (by simp [Sys.emit, WatcherPc.gone]) (by clear h7; simp_all; try omega) rfl h7⟩

set_option maxHeartbeats 2000000 in
theorem traces_stepWatcher (s t : Sys) (hs : stepWatcher s = some t) (lk : Links s)
    (inv : Traces s) : Traces t := by
  obtain ⟨k1, k2, k3, -, -, -, -⟩ := lk
  obtain ⟨h1, h2, h3, h4, h5, h6, h7⟩ := inv
  unfold stepWatcher at hs
  split at hs <;> (try split at hs) <;> simp only [Option.some.injEq, reduceCtorEq] at hs <;>
    subst hs <;> exact
    ⟨by
      first
        | assumption
        | (clear k1 k2 k3 h2 h3 h4 h5 h6 h7; simp_all [Sys.emit, Sys.eventsOf, evs_cons, mainIndex, mainRun]; done)
        | (clear k1 k2 k3 h2 h3 h4 h5 h6 h7; simpa [Sys.emit, Sys.eventsOf, evs_cons, mainIndex, mainRun] using h1),
     by
      first
        | assumption
        | (clear k2 k3 h1 h3 h4 h5 h6 h7; simp_all [Sys.emit, Sys.eventsOf, evs_cons, mainIndex, listenerTraces, listenerOnSignal, listenerOnCtxDone]; done)
        | (clear k2 k3 h1 h3 h4 h5 h6 h7; simpa [Sys.emit, Sys.eventsOf, evs_cons, mainIndex, listenerTraces, listenerOnSignal, listenerOnCtxDone] using h2)
        | (clear k2 k3 h1 h3 h4 h5 h6 h7; simp_all [Sys.emit, Sys.eventsOf, evs_cons, mainIndex, listenerTraces, listenerOnSignal, listenerOnCtxDone]; rcases h2 with h | h <;> simp_all),
     by
      first
        | assumption
        | (clear k1 k2 h1 h2 h4 h5 h6 h7; simp_all [Sys.emit, Sys.eventsOf, evs_cons, mainIndex, watcherIndex, watcherRun]; done)
        | (clear k1 k2 h1 h2 h4 h5 h6 h7; simpa [Sys.emit, Sys.eventsOf, evs_cons, mainIndex, watcherIndex, watcherRun] using h3),
     by
      first
        | assumption
        | (clear k1 k3 h1 h2 h3 h5 h6 h7; simp_all [Sys.emit, Sys.eventsOf, evs_cons, mainIndex, workerTail]; done)
        | (clear k1 k3 h1 h2 h3 h5 h6 h7; simpa [Sys.emit, Sys.eventsOf, evs_cons, mainIndex, workerTail] using h4),
     by
      first
        | assumption
        | (clear k1 k3 h1 h2 h3 h4 h6 h7; simp_all [Sys.emit, Sys.eventsOf, evs_cons, mainIndex, workerTail, Event.inLoop]; done)
        | (clear k1 k3 h1 h2 h3 h4 h6 h7; simpa [Sys.emit, Sys.eventsOf, evs_cons, mainIndex, workerTail, Event.inLoop] using h5),
     by
      first
        | assumption
        | (clear k1 k2 k3 h1 h2 h3 h4 h5 h7; simp_all [Sys.emit, Sys.eventsOf, evs_cons]; done)
        | (clear k1 k2 k3 h1 h2 h3 h4 h5 h7; simpa [Sys.emit, Sys.eventsOf, evs_cons] using h6),
     by
      clear h1 h2 h3 h4 h5 h6
      first
        | assumption
        | exact wg_frame s _ rfl
            (by first | rfl | (clear h7; simp_all [Sys.emit, ListenerPc.gone]))
            (by first | rfl | (clear h7; simp_all [Sys.emit, WorkerPc.gone]))
            (by first | rfl | (clear h7; simp_all [Sys.emit, WatcherPc.gone])) rfl h7
        | exact wg_listener_exit s _ rfl rfl rfl (by clear h7; simp_all [Sys.emit, ListenerPc.gone])
            (by simp [Sys.emit, ListenerPc.gone]) (by clear h7; simp_all; try omega) rfl h7
        | exact wg_worker_exit s _ rfl rfl rfl (by clear h7; simp_all [Sys.emit, WorkerPc.gone])
            (by simp [Sys.emit, WorkerPc.gone]) (by clear h7; simp_all; try omega) rfl h7
        | exact wg_watcher_exit s _ rfl rfl rfl (by clear h7; simp_all [Sys.emit, WatcherPc.gone])
            (by simp [Sys.emit, WatcherPc.gone]) (by clear h7; simp_all; try omega) rfl h7⟩

set_option maxHeartbeats 2000000 in
theorem traces_stepSignal (s t : Sys) (hs : stepSignal s = some t) (lk : Links s)
    (inv : Traces s) : Traces t := by
  obtain ⟨k1, k2, k3, -, -, -, -⟩ := lk
  obtain ⟨h1, h2, h3, h4, h5, h6, h7⟩ := inv
  unfold stepSignal at hs
  split at hs <;> (try split at hs) <;> simp only [Option.some.injEq, reduceCtorEq] at hs <;>
    subst hs <;> exact
    ⟨by
      first
        | assumption
        | (clear k1 k2 k3 h2 h3 h4 h5 h6 h7; simp_all [Sys.emit, Sys.eventsOf, evs_cons, mainIndex, mainRun]; done)
        | (clear k1 k2 k3 h2 h3 h4 h5 h6 h7; simpa [Sys.emit, Sys.eventsOf, evs_cons, mainIndex, mainRun] using h1),
     by
      first
        | assumption
        | (clear k2 k3 h1 h3 h4 h5 h6 h7; simp_all [Sys.emit, Sys.eventsOf, evs_cons, mainIndex, listenerTraces, listenerOnSignal, listenerOnCtxDone]; done)
        | (clear k2 k3 h1 h3 h4 h5 h6 h7; simpa [Sys.emit, Sys.eventsOf, evs_cons, mainIndex, listenerTraces, listenerOnSignal, listenerOnCtxDone] using h2)
        | (clear k2 k3 h1 h3 h4 h5 h6 h7; simp_all [Sys.emit, Sys.eventsOf, evs_cons, mainIndex, listenerTraces, listenerOnSignal, listenerOnCtxDone]; rcases h2 with h | h <;> simp_all),
     by
      first
        | assumption
        | (clear k1 k2 h1 h2 h4 h5 h6 h7; simp_all [Sys.emit, Sys.eventsOf, evs_cons, mainIndex, watcherIndex, watcherRun]; done)
        | (clear k1 k2 h1 h2 h4 h5 h6 h7; simpa [Sys.emit, Sys.eventsOf, evs_cons, mainIndex, watcherIndex, watcherRun] using h3),
     by
      first
        | assumption
        | (clear k1 k3 h1 h2 h3 h5 h6 h7; simp_all [Sys.emit, Sys.eventsOf, evs_cons, mainIndex, workerTail]; done)
        | (clear k1 k3 h1 h2 h3 h5 h6 h7; simpa [Sys.emit, Sys.eventsOf, evs_cons, mainIndex, workerTail] using h4),
     by
      first
        | assumption
        | (clear k1 k3 h1 h2 h3 h4 h6 h7; simp_all [Sys.emit, Sys.eventsOf, evs_cons, mainIndex, workerTail, Event.inLoop]; done)
        | (clear k1 k3 h1 h2 h3 h4 h6 h7; simpa [Sys.emit, Sys.eventsOf, evs_cons, mainIndex, workerTail, Event.inLoop] using h5),
     by
      first
        | assumption
        | (clear k1 k2 k3 h1 h2 h3 h4 h5 h7; simp_all [Sys.emit, Sys.eventsOf, evs_cons]; done)
        | (clear k1 k2 k3 h1 h2 h3 h4 h5 h7; simpa [Sys.emit, Sys.eventsOf, evs_cons] using h6),
     by
      clear h1 h2 h3 h4 h5 h6
      first
        | assumption
        | exact wg_frame s _ rfl
            (by first | rfl | (clear h7; simp_all [Sys.emit, ListenerPc.gone]))
            (by first | rfl | (clear h7; simp_all [Sys.emit, WorkerPc.gone]))
            (by first | rfl | (clear h7; simp_all [Sys.emit, WatcherPc.gone])) rfl h7
        | exact wg_listener_exit s _ rfl rfl rfl (by clear h7; simp_all [Sys.emit, ListenerPc.gone])
            (by simp [Sys.emit, ListenerPc.gone]) (by clear h7; simp_all; try omega) rfl h7
        | exact wg_worker_exit s _ rfl rfl rfl (by clear h7; simp_all [Sys.emit, WorkerPc.gone])
            (by simp [Sys.emit, WorkerPc.gone]) (by clear h7; simp_all; try omega) rfl h7
        | exact wg_watcher_exit s _ rfl rfl rfl (by clear h7; simp_all [Sys.emit, WatcherPc.gone])
            (by simp [Sys.emit, WatcherPc.gone]) (by clear h7; simp_all; try omega) rfl h7⟩

set_option maxHeartbeats 2000000 in
theorem traces_stepReceive (s t : Sys) (hs : stepReceive s = some t) (lk : Links s)
    (inv : Traces s) : Traces t := by
  obtain ⟨k1, k2, k3, -, -, -, -⟩ := lk
  obtain ⟨h1, h2, h3, h4, h5, h6, h7⟩ := inv
  unfold stepReceive at hs
  split at hs <;> (try split at hs) <;> simp only [Option.some.injEq, reduceCtorEq] at hs <;>
    subst hs <;> exact
    ⟨by
      first
        | assumption
        | (clear k1 k2 k3 h2 h3 h4 h5 h6 h7; simp_all [Sys.emit, Sys.eventsOf, evs_cons, mainIndex, mainRun]; done)
        | (clear k1 k2 k3 h2 h3 h4 h5 h6 h7; simpa [Sys.emit, Sys.eventsOf, evs_cons, mainIndex, mainRun] using h1),
     by
      first
        | assumption
        | (clear k2 k3 h1 h3 h4 h5 h6 h7; simp_all [Sys.emit, Sys.eventsOf, evs_cons, mainIndex, listenerTraces, listenerOnSignal, listenerOnCtxDone]; done)
        | (clear k2 k3 h1 h3 h4 h5 h6 h7; simpa [Sys.emit, Sys.eventsOf, evs_cons, mainIndex, listenerTraces, listenerOnSignal, listenerOnCtxDone] using h2)
        | (clear k2 k3 h1 h3 h4 h5 h6 h7; simp_all [Sys.emit, Sys.eventsOf, evs_cons, mainIndex, listenerTraces, listenerOnSignal, listenerOnCtxDone]; rcases h2 with h | h <;> simp_all),
     by
      first
        | assumption
        | (clear k1 k2 h1 h2 h4 h5 h6 h7; simp_all [Sys.emit, Sys.eventsOf, evs_cons, mainIndex, watcherIndex, watcherRun]; done)
        | (clear k1 k2 h1 h2 h4 h5 h6 h7; simpa [Sys.emit, Sys.eventsOf, evs_cons, mainIndex, watcherIndex, watcherRun] using h3),
     by
      first
        | assumption
        | (clear k1 k3 h1 h2 h3 h5 h6 h7; simp_all [Sys.emit, Sys.eventsOf, evs_cons, mainIndex, workerTail]; done)
        | (clear k1 k3 h1 h2 h3 h5 h6 h7; simpa [Sys.emit, Sys.eventsOf, evs_cons, mainIndex, workerTail] using h4),
     by
      first
        | assumption
        | (clear k1 k3 h1 h2 h3 h4 h6 h7; simp_all [Sys.emit, Sys.eventsOf, evs_cons, mainIndex, workerTail, Event.inLoop]; done)
        | (clear k1 k3 h1 h2 h3 h4 h6 h7; simpa [Sys.emit, Sys.eventsOf, evs_cons, mainIndex, workerTail, Event.inLoop] using h5),
     by
      first
        | assumption
        | (clear k1 k2 k3 h1 h2 h3 h4 h5 h7; simp_all [Sys.emit, Sys.eventsOf, evs_cons]; done)
        | (clear k1 k2 k3 h1 h2 h3 h4 h5 h7; simpa [Sys.emit, Sys.eventsOf, evs_cons] using h6),
     by
      clear h1 h2 h3 h4 h5 h6
      first
        | assumption
        | exact wg_frame s _ rfl
            (by first | rfl | (clear h7; simp_all [Sys.emit, ListenerPc.gone]))
            (by first | rfl | (clear h7; simp_all [Sys.emit, WorkerPc.gone]))
            (by first | rfl | (clear h7; simp_all [Sys.emit, WatcherPc.gone])) rfl h7
        | exact wg_listener_exit s _ rfl rfl rfl (by clear h7; simp_all [Sys.emit, ListenerPc.gone])
            (by simp [Sys.emit, ListenerPc.gone]) (by clear h7; simp_all; try omega) rfl h7
        | exact wg_worker_exit s _ rfl rfl rfl (by clear h7; simp_all [Sys.emit, WorkerPc.gone])
            (by simp [Sys.emit, WorkerPc.gone]) (by clear h7; simp_all; try omega) rfl h7
        | exact wg_watcher_exit s _ rfl rfl rfl (by clear h7; simp_all [Sys.emit, WatcherPc.gone])
            (by simp [Sys.emit, WatcherPc.gone]) (by clear h7; simp_all; try omega) rfl h7⟩

set_option maxHeartbeats 2000000 in
theorem traces_stepOutsideCancel (s t : Sys) (hs : stepOutsideCancel s = some t) (lk : Links s)
    (inv : Traces s) : Traces t := by
  obtain ⟨k1, k2, k3, -, -, -, -⟩ := lk
  obtain ⟨h1, h2, h3, h4, h5, h6, h7⟩ := inv
  unfold stepOutsideCancel at hs
  simp only [Option.some.injEq] at hs
  subst hs
  exact
    ⟨by
      first
        | assumption
        | (clear k1 k2 k3 h2 h3 h4 h5 h6 h7; simp_all [Sys.emit, Sys.eventsOf, evs_cons, mainIndex, mainRun]; done)
        | (clear k1 k2 k3 h2 h3 h4 h5 h6 h7; simpa [Sys.emit, Sys.eventsOf, evs_cons, mainIndex, mainRun] using h1),
     by
      first
        | assumption
        | (clear k2 k3 h1 h3 h4 h5 h6 h7; simp_all [Sys.emit, Sys.eventsOf, evs_cons, mainIndex, listenerTraces, listenerOnSignal, listenerOnCtxDone]; done)
        | (clear k2 k3 h1 h3 h4 h5 h6 h7; simpa [Sys.emit, Sys.eventsOf, evs_cons, mainIndex, listenerTraces, listenerOnSignal, listenerOnCtxDone] using h2)
        | (clear k2 k3 h1 h3 h4 h5 h6 h7; simp_all [Sys.emit, Sys.eventsOf, evs_cons, mainIndex, listenerTraces, listenerOnSignal, listenerOnCtxDone]; rcases h2 with h | h <;> simp_all),
     by
      first
        | assumption
        | (clear k1 k2 h1 h2 h4 h5 h6 h7; simp_all [Sys.emit, Sys.eventsOf, evs_cons, mainIndex, watcherIndex, watcherRun]; done)
        | (clear k1 k2 h1 h2 h4 h5 h6 h7; simpa [Sys.emit, Sys.eventsOf, evs_cons, mainIndex, watcherIndex, watcherRun] using h3),
     by
      first
        | assumption
        | (clear k1 k3 h1 h2 h3 h5 h6 h7; simp_all [Sys.emit, Sys.eventsOf, evs_cons, mainIndex, workerTail]; done)
        | (clear k1 k3 h1 h2 h3 h5 h6 h7; simpa [Sys.emit, Sys.eventsOf, evs_cons, mainIndex, workerTail] using h4),
     by
      first
        | assumption
        | (clear k1 k3 h1 h2 h3 h4 h6 h7; simp_all [Sys.emit, Sys.eventsOf, evs_cons, mainIndex, workerTail, Event.inLoop]; done)
        | (clear k1 k3 h1 h2 h3 h4 h6 h7; simpa [Sys.emit, Sys.eventsOf, evs_cons, mainIndex, workerTail, Event.inLoop] using h5),
     by
      first
        | assumption
        | (clear k1 k2 k3 h1 h2 h3 h4 h5 h7; simp_all [Sys.emit, Sys.eventsOf, evs_cons]; done)
        | (clear k1 k2 k3 h1 h2 h3 h4 h5 h7; simpa [Sys.emit, Sys.eventsOf, evs_cons] using h6),
     by
      clear h1 h2 h3 h4 h5 h6
      first
        | assumption
        | exact wg_frame s _ rfl
            (by first | rfl | (clear h7; simp_all [Sys.emit, ListenerPc.gone]))
            (by first | rfl | (clear h7; simp_all [Sys.emit, WorkerPc.gone]))
            (by first | rfl | (clear h7; simp_all [Sys.emit, WatcherPc.gone])) rfl h7
        | exact wg_listener_exit s _ rfl rfl rfl (by clear h7; simp_all [Sys.emit, ListenerPc.gone])
            (by simp [Sys.emit, ListenerPc.gone]) (by clear h7; simp_all; try omega) rfl h7
        | exact wg_worker_exit s _ rfl rfl rfl (by clear h7; simp_all [Sys.emit, WorkerPc.gone])
            (by simp [Sys.emit, WorkerPc.gone]) (by clear h7; simp_all; try omega) rfl h7
        | exact wg_watcher_exit s _ rfl rfl rfl (by clear h7; simp_all [Sys.emit, WatcherPc.gone])
            (by simp [Sys.emit, WatcherPc.gone]) (by clear h7; simp_all; try omega) rfl h7⟩

theorem inv_next (env : Env) (s : Sys) (l : Label) :
    Links s ∧ Traces s → Links (next env s l) ∧ Traces (next env s l) :=
  next_rel env (fun s t => Links s ∧ Traces s → Links t ∧ Traces t) (fun _ h => h)
    (fun s t hs h => ⟨links_stepMain s t hs h.1, traces_stepMain s t hs h.1 h.2⟩)
    (fun s t hs h => ⟨links_stepListener s t hs h.1, traces_stepListener s t hs h.1 h.2⟩)
    (fun s t _ hs h => ⟨links_stepWorker env s t hs h.1, traces_stepWorker env s t hs h.1 h.2⟩)
    (fun s t hs h => ⟨links_stepWatcher s t hs h.1, traces_stepWatcher s t hs h.1 h.2⟩)
    (fun s t hs h => ⟨links_stepSignal s t hs h.1, traces_stepSignal s t hs h.1 h.2⟩)
    (fun s t hs h => ⟨links_stepReceive s t hs h.1, traces_stepReceive s t hs h.1 h.2⟩)
    (fun s t hs h =>
      ⟨links_stepOutsideCancel s t hs h.1, traces_stepOutsideCancel s t hs h.1 h.2⟩) s l

/-- What each goroutine has done is as described by `Traces` in every reachable state. -/
theorem traces_exec (env : Env) (sched : List Label) : Traces (exec env sched Sys.init) :=
  (exec_preserves env (fun s => Links s ∧ Traces s) (inv_next env) sched Sys.init
    ⟨links_init, traces_init⟩).2

end Pipeline

namespace Pipeline
open Models

/-! ### Consequences of the invariants -/

/-- The worker's events so far: events of its loop, then what it has done after the loop. -/
theorem worker_shape (env : Env) (sched : List Label) :
    ∃ pre : List Event,
      (exec env sched Sys.init).eventsOf Task.worker =
        pre ++ workerTail (exec env sched Sys.init).wpc ∧
      ∀ e ∈ pre, e.inLoop = true := by
  have h := traces_exec env sched
  refine ⟨((evs Task.worker (exec env sched Sys.init).log).drop
    (workerTail (exec env sched Sys.init).wpc).length).reverse, ?_, ?_⟩
  · have h4 := h.tail
    have hsplit := List.take_append_drop (workerTail (exec env sched Sys.init).wpc).length
      (evs Task.worker (exec env sched Sys.init).log)
    rw [h4] at hsplit
    unfold Sys.eventsOf
    rw [← hsplit]
    simp
  · intro e he
    exact h.loop e (List.mem_reverse.mp he)

theorem inLoop_ne_close {e : Event} (h : e.inLoop = true) : e ≠ Event.closePublish := by
  intro hc; rw [hc] at h; exact Bool.noConfusion h

theorem inLoop_ne_done {e : Event} (h : e.inLoop = true) : e ≠ Event.wgDone := by
  intro hc; rw [hc] at h; exact Bool.noConfusion h

theorem tail_not_send (pc : WorkerPc) : ∀ e ∈ workerTail pc, e.isSend = false := by
  cases pc <;> simp [workerTail, Event.isSend]

theorem listenerTraces_not_onPublish (pc : ListenerPc) :
    ∀ tr ∈ listenerTraces pc, ∀ e ∈ tr, e.onPublish = false := by
  cases pc <;> decide

theorem mainRun_not_onPublish : ∀ e ∈ mainRun, e.onPublish = false := by decide

theorem watcherRun_not_onPublish : ∀ e ∈ watcherRun, e.onPublish = false := by decide

/-- Only the worker operates on `chPublish`. -/
theorem others_not_onPublish (env : Env) (sched : List Label) (t : Task) (ht : t ≠ Task.worker) :
    ∀ e ∈ (exec env sched Sys.init).eventsOf t, e.onPublish = false := by
  have h := traces_exec env sched
  intro e he
  cases t with
  | worker => exact absurd rfl ht
  | main =>
    rw [h.main] at he
    exact mainRun_not_onPublish e (List.mem_of_mem_take he)
  | listener => exact listenerTraces_not_onPublish _ _ h.listener e he
  | watcher =>
    rw [h.watcher] at he
    exact watcherRun_not_onPublish e (List.mem_of_mem_take he)
  | outside =>
    have := h.outside e (List.mem_reverse.mp he)
    rw [this]; rfl

end Pipeline

namespace Pipeline
open Models

theorem no_send_after_close (pre tail a b : List Event) (hpre : ∀ e ∈ pre, e.inLoop = true)
    (htail : ∀ e ∈ tail, e.isSend = false) (h : pre ++ tail = a ++ Event.closePublish :: b) :
    ∀ e ∈ b, e.isSend = false := by
  rcases List.append_eq_append_iff.mp h with ⟨a1, _, h2⟩ | ⟨c1, h1, h2⟩
  · intro e he
    apply htail
    rw [h2]
    simp [he]
  · cases c1 with
    | nil =>
      intro e he
      apply htail
      simp only [List.nil_append] at h2
      rw [← h2]
      simp [he]
    | cons c cs =>
      simp only [List.cons_append, List.cons.injEq] at h2
      have hmem : Event.closePublish ∈ pre := by
        rw [h1, ← h2.1]
        simp
      exact absurd rfl (inLoop_ne_close (hpre _ hmem))

theorem count_close_tail (pc : WorkerPc) : (workerTail pc).count Event.closePublish ≤ 1 := by
  cases pc <;> simp [workerTail]

theorem close_mem_tail (pc : WorkerPc) :
    workerClosed pc = true ↔ Event.closePublish ∈ workerTail pc := by
  cases pc <;> simp [workerClosed, workerTail]

/-- C5 (close discipline of the generator).  In every state the program can reach:
when the worker has exited, its events are events of its loop (log an error, annotate,
send, sleep) followed by exactly `close(chPublish)`, the "cancel received" log line and the
deferred `wg.Done()`, in that order; at any time `chPublish` has been closed at most once,
no send follows a close, no goroutine other than the worker (in particular not the watcher)
sends on or closes `chPublish`, and the channel is closed exactly when the worker has
performed its close. -/
theorem publish_close_discipline (env : Env) (sched : List Label) :
    ((exec env sched Sys.init).wpc = WorkerPc.exited →
        ∃ pre : List Event,
          (exec env sched Sys.init).eventsOf Task.worker =
            pre ++ [Event.closePublish, Event.logWrite Level.debug "cancel received",
              Event.wgDone] ∧
          ∀ e ∈ pre, e.inLoop = true) ∧
      ((exec env sched Sys.init).eventsOf Task.worker).count Event.closePublish ≤ 1 ∧
      (∀ a b : List Event,
        (exec env sched Sys.init).eventsOf Task.worker = a ++ Event.closePublish :: b →
        ∀ e ∈ b, e.isSend = false) ∧
      (∀ t : Task, t ≠ Task.worker →
        ∀ e ∈ (exec env sched Sys.init).eventsOf t, e.onPublish = false) ∧
      ((exec env sched Sys.init).publishClosed = true ↔
        Event.closePublish ∈ (exec env sched Sys.init).eventsOf Task.worker) := by
  obtain ⟨pre, hshape, hpre⟩ := worker_shape env sched
  have hnc : Event.closePublish ∉ pre := fun hm => inLoop_ne_close (hpre _ hm) rfl
  refine ⟨?_, ?_, ?_, ?_, ?_⟩
  · intro hex
    refine ⟨pre, ?_, hpre⟩
    rw [hshape, hex]
    rfl
  · rw [hshape, List.count_append, List.count_eq_zero_of_not_mem hnc, Nat.zero_add]
    exact count_close_tail _
  · intro a b hab
    rw [hshape] at hab
    exact no_send_after_close pre _ a b hpre (tail_not_send _) hab
  · intro t ht
    exact others_not_onPublish env sched t ht
  · rw [(links_exec env sched).closed, hshape, close_mem_tail]
    simp [hnc]

/-- Witness for C5: a run with one successful and one failed iteration, after which the
flag is set and the worker exits; its events end with close, log line, `wg.Done()`. -/
theorem publish_close_discipline_witness :
    (exec demoEnv workerExitSchedule Sys.init).wpc = WorkerPc.exited ∧
      (exec demoEnv workerExitSchedule Sys.init).eventsOf Task.worker =
        [Event.sdkCreate [0], Event.send [0], Event.sleep 1000000000,
          Event.logError "open key: no such file", Event.closePublish,
          Event.logWrite Level.debug "cancel received", Event.wgDone] ∧
      ∃ pre : List Event,
        (exec demoEnv workerExitSchedule Sys.init).eventsOf Task.worker =
          pre ++ [Event.closePublish, Event.logWrite Level.debug "cancel received",
            Event.wgDone] ∧
        ∀ e ∈ pre, e.inLoop = true :=
  ⟨by decide, by decide,
    (publish_close_discipline demoEnv workerExitSchedule).1 (by decide)⟩

end Pipeline

namespace Pipeline
open Models

theorem listenerTraces_facts (pc : ListenerPc) :
    ∀ tr ∈ listenerTraces pc,
      tr.count Event.cancel ≤ 1 ∧
      tr.count Event.recvSignal + tr.count Event.recvCtxDone ≤ 1 ∧
      (Event.cancel ∈ tr → Event.recvSignal ∈ tr) ∧
      (pc.gone = true → releasedLast tr) ∧
      (pc.gone = false → Event.wgDone ∉ tr) := by
  unfold releasedLast
  cases pc <;> decide

theorem listener_run_on_signal (env : Env) (s : Sys) (hl : s.lpc = ListenerPc.select)
    (hc : s.crashed = false) :
    (exec env [Label.signal, Label.listener, Label.listener, Label.listener, Label.listener]
        s).lpc = ListenerPc.exited ∧
      (exec env [Label.signal, Label.listener, Label.listener, Label.listener, Label.listener]
        s).eventsOf Task.listener =
        s.eventsOf Task.listener ++
          [Event.recvSignal, Event.cancel, Event.signalStop, Event.closeSignalStream,
            Event.wgDone] := by
  simp [exec, next, step, stepSignal, stepListener, hl, hc, Sys.emit, Sys.eventsOf, evs_cons]

theorem listener_run_on_ctxDone (env : Env) (s : Sys) (hl : s.lpc = ListenerPc.select)
    (hc : s.crashed = false) (hd : s.ctxDone = true) :
    (exec env [Label.listener, Label.listener, Label.listener, Label.listener]
        s).lpc = ListenerPc.exited ∧
      (exec env [Label.listener, Label.listener, Label.listener, Label.listener]
        s).eventsOf Task.listener =
        s.eventsOf Task.listener ++
          [Event.recvCtxDone, Event.signalStop, Event.closeSignalStream, Event.wgDone] := by
  simp [exec, next, step, stepListener, hl, hc, hd, Sys.emit, Sys.eventsOf, evs_cons]

/-- C4 (the shutdown coordinator is a one-shot translator).  In every state the program can
reach, the listener has called `cancel` at most once, has woken from its `select` at most
once, and has called `cancel` only after waking on a signal.  Once it has exited, its
events are either notify, wake on signal, one `cancel`, then the deferred stop, close and
`wg.Done()`, or notify, wake on the context being done, then the deferred stop, close and
`wg.Done()` with no `cancel` at all.  And it does get there: from its `select`, a signal
followed by four of its own moves, or (the context being done) four of its own moves, take
it to its exit with exactly those events. -/
theorem listener_one_shot (env : Env) (sched : List Label) :
    ((exec env sched Sys.init).eventsOf Task.listener).count Event.cancel ≤ 1 ∧
      ((exec env sched Sys.init).eventsOf Task.listener).count Event.recvSignal +
        ((exec env sched Sys.init).eventsOf Task.listener).count Event.recvCtxDone ≤ 1 ∧
      (Event.cancel ∈ (exec env sched Sys.init).eventsOf Task.listener →
        Event.recvSignal ∈ (exec env sched Sys.init).eventsOf Task.listener) ∧
      ((exec env sched Sys.init).lpc = ListenerPc.exited →
        (exec env sched Sys.init).eventsOf Task.listener = listenerOnSignal ∨
        (exec env sched Sys.init).eventsOf Task.listener = listenerOnCtxDone) ∧
      listenerOnSignal.count Event.cancel = 1 ∧
      listenerOnCtxDone.count Event.cancel = 0 ∧
      ((exec env sched Sys.init).lpc = ListenerPc.select →
        (exec env sched Sys.init).crashed = false →
        (exec env
            [Label.signal, Label.listener, Label.listener, Label.listener, Label.listener]
            (exec env sched Sys.init)).lpc = ListenerPc.exited ∧
          (exec env
            [Label.signal, Label.listener, Label.listener, Label.listener, Label.listener]
            (exec env sched Sys.init)).eventsOf Task.listener = listenerOnSignal) ∧
      ((exec env sched Sys.init).lpc = ListenerPc.select →
        (exec env sched Sys.init).crashed = false →
        (exec env sched Sys.init).ctxDone = true →
        (exec env [Label.listener, Label.listener, Label.listener, Label.listener]
            (exec env sched Sys.init)).lpc = ListenerPc.exited ∧
          (exec env [Label.listener, Label.listener, Label.listener, Label.listener]
            (exec env sched Sys.init)).eventsOf Task.listener = listenerOnCtxDone) := by
  have htr := (traces_exec env sched).listener
  have hf := listenerTraces_facts _ _ htr
  refine ⟨hf.1, hf.2.1, hf.2.2.1, ?_, by decide, by decide, ?_, ?_⟩
  · intro hex
    rw [hex] at htr
    simpa [listenerTraces] using htr
  · intro hsel hcr
    have hrun := listener_run_on_signal env _ hsel hcr
    refine ⟨hrun.1, ?_⟩
    rw [hrun.2]
    rw [hsel] at htr
    have : (exec env sched Sys.init).eventsOf Task.listener = [Event.signalNotify] := by
      simpa [listenerTraces, listenerOnSignal] using htr
    rw [this]
    rfl
  · intro hsel hcr hdone
    have hrun := listener_run_on_ctxDone env _ hsel hcr hdone
    refine ⟨hrun.1, ?_⟩
    rw [hrun.2]
    rw [hsel] at htr
    have : (exec env sched Sys.init).eventsOf Task.listener = [Event.signalNotify] := by
      simpa [listenerTraces, listenerOnSignal] using htr
    rw [this]
    rfl

/-- Witness for C4: in one run a signal arrives and the listener exits after one `cancel`;
in another the context is cancelled from outside and the listener exits without calling
`cancel`. -/
theorem listener_one_shot_witness :
    (exec demoEnv signalShutdownSchedule Sys.init).lpc = ListenerPc.exited ∧
      (exec demoEnv signalShutdownSchedule Sys.init).eventsOf Task.listener =
        listenerOnSignal ∧
      (exec demoEnv outsideCancelSchedule Sys.init).lpc = ListenerPc.exited ∧
      (exec demoEnv outsideCancelSchedule Sys.init).eventsOf Task.listener =
        listenerOnCtxDone ∧
      ((exec demoEnv signalShutdownSchedule Sys.init).eventsOf Task.listener =
          listenerOnSignal ∨
        (exec demoEnv signalShutdownSchedule Sys.init).eventsOf Task.listener =
          listenerOnCtxDone) :=
  ⟨by decide, by decide, by decide, by decide,
    (listener_one_shot demoEnv signalShutdownSchedule).2.2.2.1 (by decide)⟩

end Pipeline

namespace Pipeline
open Models

theorem watcherRun_facts (pc : WatcherPc) :
    (pc.gone = true → releasedLast (watcherRun.take (watcherIndex pc))) ∧
      (pc.gone = false → Event.wgDone ∉ watcherRun.take (watcherIndex pc)) := by
  unfold releasedLast
  cases pc <;> decide

theorem workerTail_facts (pc : WorkerPc) (pre : List Event) (hpre : ∀ e ∈ pre, e.inLoop = true) :
    (pc.gone = true → releasedLast (pre ++ workerTail pc)) ∧
      (pc.gone = false → Event.wgDone ∉ pre ++ workerTail pc) := by
  have hnd : Event.wgDone ∉ pre := fun hm => inLoop_ne_done (hpre _ hm) rfl
  unfold releasedLast
  cases pc <;>
    simp [WorkerPc.gone, workerTail, List.count_append, List.count_eq_zero_of_not_mem hnd, hnd,
      List.getLast?_append]

theorem ticket_nonneg (s : Sys) (k : Nat) (g : Bool) : 0 ≤ ticket s k g := by
  unfold ticket
  split <;> decide

/-- C8 (wait-group ticket balance).  In every state the program can reach:
the calling goroutine's events are an initial part of `wg.Add(1)`, `go` listener,
`wg.Add(1)`, `go` worker, `wg.Add(1)`, `go` watcher, ..., and a goroutine has started exactly
when its `go` statement, which follows its `wg.Add(1)`, has been executed; a goroutine that
has finished (the worker: by returning or while a panic unwinds it) has performed
`wg.Done()` exactly once and as its last event, and one that has not finished has not
performed it; the counter equals the number of tickets held, so it is at least 1 from the
listener's `wg.Add(1)` until the listener has exited, and it is back at its initial value
once listener, worker and watcher have all finished. -/
theorem waitgroup_ticket_balance (env : Env) (sched : List Label) :
    ((exec env sched Sys.init).eventsOf Task.main =
        mainRun.take (mainIndex (exec env sched Sys.init).mpc) ∧
      mainRun.take 6 =
        [Event.wgAdd 1, Event.go Task.listener, Event.wgAdd 1, Event.go Task.worker,
          Event.wgAdd 1, Event.go Task.watcher] ∧
      ((exec env sched Sys.init).lpc ≠ ListenerPc.notStarted ↔
        2 ≤ mainIndex (exec env sched Sys.init).mpc) ∧
      ((exec env sched Sys.init).wpc ≠ WorkerPc.notStarted ↔
        4 ≤ mainIndex (exec env sched Sys.init).mpc) ∧
      ((exec env sched Sys.init).hpc ≠ WatcherPc.notStarted ↔
        6 ≤ mainIndex (exec env sched Sys.init).mpc)) ∧
      (((exec env sched Sys.init).lpc.gone = true →
          releasedLast ((exec env sched Sys.init).eventsOf Task.listener)) ∧
        ((exec env sched Sys.init).lpc.gone = false →
          Event.wgDone ∉ (exec env sched Sys.init).eventsOf Task.listener) ∧
        ((exec env sched Sys.init).wpc.gone = true →
          releasedLast ((exec env sched Sys.init).eventsOf Task.worker)) ∧
        ((exec env sched Sys.init).wpc.gone = false →
          Event.wgDone ∉ (exec env sched Sys.init).eventsOf Task.worker) ∧
        ((exec env sched Sys.init).hpc.gone = true →
          releasedLast ((exec env sched Sys.init).eventsOf Task.watcher)) ∧
        ((exec env sched Sys.init).hpc.gone = false →
          Event.wgDone ∉ (exec env sched Sys.init).eventsOf Task.watcher)) ∧
      ((exec env sched Sys.init).wg =
          ticket (exec env sched Sys.init) 0 (exec env sched Sys.init).lpc.gone +
            ticket (exec env sched Sys.init) 2 (exec env sched Sys.init).wpc.gone +
            ticket (exec env sched Sys.init) 4 (exec env sched Sys.init).hpc.gone ∧
        (1 ≤ mainIndex (exec env sched Sys.init).mpc →
          (exec env sched Sys.init).lpc ≠ ListenerPc.exited →
          1 ≤ (exec env sched Sys.init).wg) ∧
        ((exec env sched Sys.init).lpc = ListenerPc.exited →
          (exec env sched Sys.init).wpc.gone = true →
          (exec env sched Sys.init).hpc = WatcherPc.exited →
          (exec env sched Sys.init).wg = Sys.init.wg)) := by
  have htr := traces_exec env sched
  have hlk := links_exec env sched
  obtain ⟨pre, hshape, hpre⟩ := worker_shape env sched
  have hL := listenerTraces_facts _ _ htr.listener
  have hH := watcherRun_facts (exec env sched Sys.init).hpc
  have hW := workerTail_facts (exec env sched Sys.init).wpc pre hpre
  refine ⟨⟨htr.main, rfl, ?_, ?_, ?_⟩, ⟨hL.2.2.2.1, hL.2.2.2.2, ?_, ?_, ?_, ?_⟩,
    ⟨htr.wg, ?_, ?_⟩⟩
  · rw [Ne, hlk.listener]; omega
  · rw [Ne, hlk.worker]; omega
  · rw [Ne, hlk.watcher]; omega
  · rw [hshape]; exact hW.1
  · rw [hshape]; exact hW.2
  · rw [htr.watcher]; exact hH.1
  · rw [htr.watcher]; exact hH.2
  · intro hreg hne
    have hg : (exec env sched Sys.init).lpc.gone = false := by
      cases hl : (exec env sched Sys.init).lpc <;> simp [ListenerPc.gone, hl] at hne ⊢
    have h1 : ticket (exec env sched Sys.init) 0 (exec env sched Sys.init).lpc.gone = 1 := by
      rw [hg]
      unfold ticket
      rw [if_pos ⟨by omega, rfl⟩]
    have h2 := ticket_nonneg (exec env sched Sys.init) 2 (exec env sched Sys.init).wpc.gone
    have h3 := ticket_nonneg (exec env sched Sys.init) 4 (exec env sched Sys.init).hpc.gone
    rw [htr.wg, h1]
    omega
  · intro h1 h2 h3
    rw [htr.wg, h1, h2, h3]
    simp [ticket, ListenerPc.gone, WatcherPc.gone, Sys.init]

/-- Witness for C8: after a complete run (signal, everything exits, `wg.Wait()` returns)
the counter is back at its initial value 0; while only the listener is registered and
running, it is at least 1. -/
theorem waitgroup_ticket_balance_witness :
    (exec demoEnv signalShutdownSchedule Sys.init).mpc = MainPc.returned ∧
      (exec demoEnv signalShutdownSchedule Sys.init).wg = 0 ∧
      (exec demoEnv signalShutdownSchedule Sys.init).wg = Sys.init.wg ∧
      1 ≤ (exec demoEnv [Label.main, Label.main, Label.listener] Sys.init).wg :=
  ⟨by decide, by decide,
    (waitgroup_ticket_balance demoEnv signalShutdownSchedule).2.2.2.2 (by decide) (by decide)
      (by decide),
    (waitgroup_ticket_balance demoEnv [Label.main, Label.main, Label.listener]).2.2.2.1
      (by decide) (by decide)⟩

end Pipeline

namespace Pipeline
open Models

/-! ### Moves that are not the worker's leave the worker alone -/

theorem stepMain_view (s t : Sys) (hs : stepMain s = some t) (lk : Links s)
    (hw : s.wpc ≠ WorkerPc.notStarted) : t.wpc = s.wpc ∧ t.iter = s.iter ∧
      evs Task.worker t.log = evs Task.worker s.log ∧ t.received = s.received ∧
      t.publishClosed = s.publishClosed ∧ t.crashed = s.crashed := by
  have k2 := lk.worker
  unfold stepMain at hs
  split at hs <;> (try split at hs) <;> simp only [Option.some.injEq, reduceCtorEq] at hs <;>
    subst hs <;> simp_all [Sys.emit, evs_cons, mainIndex]

theorem stepListener_view (s t : Sys) (hs : stepListener s = some t) :
    t.wpc = s.wpc ∧ t.iter = s.iter ∧
      evs Task.worker t.log = evs Task.worker s.log ∧ t.received = s.received ∧
      t.publishClosed = s.publishClosed ∧ t.crashed = s.crashed := by
  unfold stepListener at hs
  split at hs <;> (try split at hs) <;> simp only [Option.some.injEq, reduceCtorEq] at hs <;>
    subst hs <;> simp [Sys.emit, evs_cons]

theorem stepSignal_view (s t : Sys) (hs : stepSignal s = some t) :
    t.wpc = s.wpc ∧ t.iter = s.iter ∧
      evs Task.worker t.log = evs Task.worker s.log ∧ t.received = s.received ∧
      t.publishClosed = s.publishClosed ∧ t.crashed = s.crashed := by
  unfold stepSignal at hs
  split at hs <;> simp only [Option.some.injEq, reduceCtorEq] at hs <;>
    subst hs <;> simp [Sys.emit, evs_cons]

theorem stepOutsideCancel_view (s t : Sys) (hs : stepOutsideCancel s = some t) :
    t.wpc = s.wpc ∧ t.iter = s.iter ∧
      evs Task.worker t.log = evs Task.worker s.log ∧ t.received = s.received ∧
      t.publishClosed = s.publishClosed ∧ t.crashed = s.crashed := by
  unfold stepOutsideCancel at hs
  simp only [Option.some.injEq] at hs
  subst hs
  simp [Sys.emit, evs_cons]

theorem stepWatcher_view (s t : Sys) (hs : stepWatcher s = some t) :
    t.wpc = s.wpc ∧ t.iter = s.iter ∧
      evs Task.worker t.log = evs Task.worker s.log ∧ t.received = s.received ∧
      t.publishClosed = s.publishClosed ∧ t.crashed = s.crashed := by
  unfold stepWatcher at hs
  split at hs <;> (try split at hs) <;> simp only [Option.some.injEq, reduceCtorEq] at hs <;>
    subst hs <;> simp [Sys.emit, evs_cons]


/-- A move that is neither the worker's nor a receive by the consumer leaves the worker's
view of the state as it is, once the worker has been started. -/
theorem workerView_next (env : Env) (s : Sys) (l : Label) (lk : Links s)
    (hw : s.wpc ≠ WorkerPc.notStarted) (h1 : l ≠ Label.worker) (h2 : l ≠ Label.receive) :
    workerView (next env s l) = workerView s := by
  unfold next step
  by_cases hc : s.crashed = true
  · simp [hc]
  · have hc2 : s.crashed = false := by simpa using hc
    simp only [hc2, Bool.false_eq_true, if_false]
    cases l with
    | worker => exact absurd rfl h1
    | receive => exact absurd rfl h2
    | main =>
      cases h : stepMain s with
      | none => rfl
      | some t =>
        obtain ⟨a, b, c, d, e, f⟩ := stepMain_view s t h lk hw
        simp [workerView, a, b, c, d, e, f]
    | listener =>
      cases h : stepListener s with
      | none => rfl
      | some t =>
        obtain ⟨a, b, c, d, e, f⟩ := stepListener_view s t h
        simp [workerView, a, b, c, d, e, f]
    | watcher =>
      cases h : stepWatcher s with
      | none => rfl
      | some t =>
        obtain ⟨a, b, c, d, e, f⟩ := stepWatcher_view s t h
        simp [workerView, a, b, c, d, e, f]
    | signal =>
      cases h : stepSignal s with
      | none => rfl
      | some t =>
        obtain ⟨a, b, c, d, e, f⟩ := stepSignal_view s t h
        simp [workerView, a, b, c, d, e, f]
    | outsideCancel =>
      cases h : stepOutsideCancel s with
      | none => rfl
      | some t =>
        obtain ⟨a, b, c, d, e, f⟩ := stepOutsideCancel_view s t h
        simp [workerView, a, b, c, d, e, f]

/-- The same along a schedule without worker moves and receives. -/
theorem workerView_exec (env : Env) :
    ∀ (sched : List Label) (s : Sys), Links s → s.wpc ≠ WorkerPc.notStarted →
      NoWorkerMove sched → workerView (exec env sched s) = workerView s := by
  intro sched
  induction sched with
  | nil => intro s _ _ _; rfl
  | cons l ls ih =>
    intro s lk hw hno
    have hl := hno l (List.mem_cons_self l ls)
    have hv := workerView_next env s l lk hw hl.1 hl.2
    have hw2 : (next env s l).wpc ≠ WorkerPc.notStarted := by
      have : (next env s l).wpc = s.wpc := congrArg Prod.fst hv
      rw [this]; exact hw
    rw [exec_cons, ih (next env s l) (links_next env s l lk) hw2
      (fun x hx => hno x (List.mem_cons_of_mem l hx)), hv]

/-- Links hold after a schedule from a state where they hold. -/
theorem links_exec_from (env : Env) (sched : List Label) (s : Sys) (lk : Links s) :
    Links (exec env sched s) :=
  exec_preserves env Links (links_next env) sched s lk

theorem mainRun_handlerReturn : ∀ e ∈ mainRun, ∀ b, e = Event.handlerReturn b → b = true := by
  decide

/-- Whenever `BootstrapHandler` returns, it returns `true`. -/
theorem handler_returns_true (env : Env) (sched : List Label) (b : Bool)
    (h : Event.handlerReturn b ∈ (exec env sched Sys.init).eventsOf Task.main) : b = true := by
  rw [(traces_exec env sched).main] at h
  exact mainRun_handlerReturn _ (List.mem_of_mem_take h) b rfl

end Pipeline

namespace Pipeline
open Models

/-! ### The worker's moves through one iteration -/

theorem worker_generate_error (env : Env) (s : Sys) (i : Nat) (ev : List Event)
    (rc : List Bytes) (cl : Bool) (data : SampleData) (err : String)
    (hv : workerView s = (WorkerPc.generate, i, ev, rc, cl, false))
    (hgen : env.newSampleData i = GoResult.returned (data, some err)) :
    workerView (next env s Label.worker) = (WorkerPc.logError err, i + 1, ev, rc, cl, false) := by
  simp only [workerView, Prod.mk.injEq] at hv
  obtain ⟨h1, h2, h3, h4, h5, h6⟩ := hv
  simp [next, step, stepWorker, workerView, h1, h2, h3, h4, h5, h6, hgen]

theorem worker_generate_ok (env : Env) (s : Sys) (i : Nat) (ev : List Event)
    (rc : List Bytes) (cl : Bool) (data : SampleData)
    (hv : workerView s = (WorkerPc.generate, i, ev, rc, cl, false))
    (hgen : env.newSampleData i = GoResult.returned (data, none)) :
    workerView (next env s Label.worker) = (WorkerPc.marshal data, i + 1, ev, rc, cl, false) := by
  simp only [workerView, Prod.mk.injEq] at hv
  obtain ⟨h1, h2, h3, h4, h5, h6⟩ := hv
  simp [next, step, stepWorker, workerView, h1, h2, h3, h4, h5, h6, hgen]

theorem worker_logError (env : Env) (s : Sys) (i : Nat) (ev : List Event)
    (rc : List Bytes) (cl : Bool) (err : String)
    (hv : workerView s = (WorkerPc.logError err, i, ev, rc, cl, false)) :
    workerView (next env s Label.worker) =
      (WorkerPc.loopHead, i, Event.logError err :: ev, rc, cl, false) := by
  simp only [workerView, Prod.mk.injEq] at hv
  obtain ⟨h1, h2, h3, h4, h5, h6⟩ := hv
  simp [next, step, stepWorker, workerView, Sys.emit, evs_cons, h1, h2, h3, h4, h5, h6]

theorem worker_marshal (env : Env) (s : Sys) (i : Nat) (ev : List Event)
    (rc : List Bytes) (cl : Bool) (data : SampleData)
    (hv : workerView s = (WorkerPc.marshal data, i, ev, rc, cl, false)) :
    workerView (next env s Label.worker) =
      (WorkerPc.create (env.jsonMarshal data), i, ev, rc, cl, false) := by
  simp only [workerView, Prod.mk.injEq] at hv
  obtain ⟨h1, h2, h3, h4, h5, h6⟩ := hv
  simp [next, step, stepWorker, workerView, h1, h2, h3, h4, h5, h6]

theorem worker_create (env : Env) (s : Sys) (i : Nat) (ev : List Event)
    (rc : List Bytes) (cl : Bool) (b : Bytes)
    (hv : workerView s = (WorkerPc.create b, i, ev, rc, cl, false)) :
    workerView (next env s Label.worker) =
      (WorkerPc.send b, i, Event.sdkCreate b :: ev, rc, cl, false) := by
  simp only [workerView, Prod.mk.injEq] at hv
  obtain ⟨h1, h2, h3, h4, h5, h6⟩ := hv
  simp [next, step, stepWorker, workerView, Sys.emit, evs_cons, h1, h2, h3, h4, h5, h6]

theorem worker_send_received (env : Env) (s : Sys) (i : Nat) (ev : List Event)
    (rc : List Bytes) (b : Bytes)
    (hv : workerView s = (WorkerPc.send b, i, ev, rc, false, false)) :
    workerView (next env s Label.receive) =
      (WorkerPc.sleep, i, Event.send b :: ev, b :: rc, false, false) := by
  simp only [workerView, Prod.mk.injEq] at hv
  obtain ⟨h1, h2, h3, h4, h5, h6⟩ := hv
  simp [next, step, stepReceive, workerView, Sys.emit, evs_cons, h1, h2, h3, h4, h5, h6]

theorem worker_sleep (env : Env) (s : Sys) (i : Nat) (ev : List Event)
    (rc : List Bytes) (cl : Bool)
    (hv : workerView s = (WorkerPc.sleep, i, ev, rc, cl, false)) :
    workerView (next env s Label.worker) =
      (WorkerPc.loopHead, i, Event.sleep 1000000000 :: ev, rc, cl, false) := by
  simp only [workerView, Prod.mk.injEq] at hv
  obtain ⟨h1, h2, h3, h4, h5, h6⟩ := hv
  simp [next, step, stepWorker, workerView, Sys.emit, evs_cons, h1, h2, h3, h4, h5, h6]

/-- One worker move after a stretch in which others move: the stretch does not change the
worker's view, so the move is the one the view determines. -/
theorem view_after_stretch (env : Env) (sched a : List Label) (v : WorkerPc × Nat × List Event × List Bytes × Bool × Bool)
    (hv : workerView (exec env sched Sys.init) = v) (hw : v.1 ≠ WorkerPc.notStarted)
    (ha : NoWorkerMove a) : workerView (exec env (sched ++ a) Sys.init) = v := by
  rw [exec_append, workerView_exec env a _ (links_exec env sched) ?_ ha, hv]
  have : (exec env sched Sys.init).wpc = v.1 := by rw [← hv]; rfl
  rw [this]; exact hw

theorem exec_snoc (env : Env) (sched : List Label) (l : Label) (s : Sys) :
    exec env (sched ++ [l]) s = next env (exec env sched s) l := by
  rw [exec_append]; rfl

/-- A reachable state in which the worker is anywhere but `crashed` has not crashed. -/
theorem reachable_view (env : Env) (sched : List Label)
    (h : (exec env sched Sys.init).wpc ≠ WorkerPc.crashed) :
    workerView (exec env sched Sys.init) =
      ((exec env sched Sys.init).wpc, (exec env sched Sys.init).iter,
        evs Task.worker (exec env sched Sys.init).log, (exec env sched Sys.init).received,
        workerClosed (exec env sched Sys.init).wpc, false) := by
  have lk := links_exec env sched
  have hc : (exec env sched Sys.init).crashed = false := by
    cases hcr : (exec env sched Sys.init).crashed with
    | false => rfl
    | true => exact absurd (lk.crashed.mp hcr) h
  simp [workerView, hc, lk.closed]

end Pipeline

namespace Pipeline
open Models

/-- C6 (an iteration failure is local).  Take any reachable state in which the worker is
about to call `models.NewSampleData` and that call returns an error.  Whatever the other
goroutines do in between, the worker's next two moves log that error once and bring it
back to the test of the stop flag at the head of its loop: in that iteration it performs
no `sdk.Create` and no send (its events grow by exactly the one log call, the consumer has
received nothing more), the channel stays open and the process has not crashed.  And
`BootstrapHandler` only ever returns `true`: the error is not returned from it. -/
theorem iteration_failure_is_local (env : Env) (pre a b : List Label) (data : SampleData)
    (err : String) (hpc : (exec env pre Sys.init).wpc = WorkerPc.generate)
    (hgen : env.newSampleData (exec env pre Sys.init).iter =
      GoResult.returned (data, some err))
    (ha : NoWorkerMove a) (hb : NoWorkerMove b) :
    (exec env (pre ++ a ++ [Label.worker] ++ b ++ [Label.worker]) Sys.init).wpc =
        WorkerPc.loopHead ∧
      (exec env (pre ++ a ++ [Label.worker] ++ b ++ [Label.worker]) Sys.init).eventsOf
          Task.worker =
        (exec env pre Sys.init).eventsOf Task.worker ++ [Event.logError err] ∧
      (exec env (pre ++ a ++ [Label.worker] ++ b ++ [Label.worker]) Sys.init).iter =
        (exec env pre Sys.init).iter + 1 ∧
      (exec env (pre ++ a ++ [Label.worker] ++ b ++ [Label.worker]) Sys.init).received =
        (exec env pre Sys.init).received ∧
      (exec env (pre ++ a ++ [Label.worker] ++ b ++ [Label.worker]) Sys.init).publishClosed =
        false ∧
      (exec env (pre ++ a ++ [Label.worker] ++ b ++ [Label.worker]) Sys.init).crashed =
        false ∧
      ∀ r : Bool,
        Event.handlerReturn r ∈
          (exec env (pre ++ a ++ [Label.worker] ++ b ++ [Label.worker]) Sys.init).eventsOf
            Task.main →
        r = true := by
  have v0 := reachable_view env pre (by rw [hpc]; exact fun h => WorkerPc.noConfusion h)
  rw [hpc] at v0
  have v1 := view_after_stretch env pre a _ v0 (fun h => WorkerPc.noConfusion h) ha
  have v2 := worker_generate_error env _ _ _ _ _ data err v1 hgen
  rw [← exec_snoc] at v2
  have v3 := view_after_stretch env _ b _ v2 (fun h => WorkerPc.noConfusion h) hb
  have v4 := worker_logError env _ _ _ _ _ err v3
  rw [← exec_snoc] at v4
  simp only [workerView, workerClosed, Prod.mk.injEq] at v4
  obtain ⟨h1, h2, h3, h4, h5, h6⟩ := v4
  refine ⟨h1, ?_, h2, h4, h5, h6, fun r hr => handler_returns_true env _ r hr⟩
  unfold Sys.eventsOf
  rw [h3]
  simp

/-- Witness for C6: with `demoEnv` the second call of `NewSampleData` fails; the listener
and the watcher move in between the worker's two moves. -/
theorem iteration_failure_is_local_witness :
    (exec demoEnv
        ([Label.main, Label.main, Label.main, Label.main, Label.main, Label.main, Label.main,
            Label.worker, Label.worker, Label.worker, Label.worker, Label.receive,
            Label.worker, Label.worker] ++
          [Label.listener] ++ [Label.worker] ++ [Label.outsideCancel, Label.watcher] ++
          [Label.worker]) Sys.init).wpc = WorkerPc.loopHead ∧
      (exec demoEnv
        ([Label.main, Label.main, Label.main, Label.main, Label.main, Label.main, Label.main,
            Label.worker, Label.worker, Label.worker, Label.worker, Label.receive,
            Label.worker, Label.worker] ++
          [Label.listener] ++ [Label.worker] ++ [Label.outsideCancel, Label.watcher] ++
          [Label.worker]) Sys.init).eventsOf Task.worker =
        [Event.sdkCreate [0], Event.send [0], Event.sleep 1000000000] ++
          [Event.logError "open key: no such file"] :=
  have h := iteration_failure_is_local demoEnv
    [Label.main, Label.main, Label.main, Label.main, Label.main, Label.main, Label.main,
      Label.worker, Label.worker, Label.worker, Label.worker, Label.receive, Label.worker,
      Label.worker]
    [Label.listener] [Label.outsideCancel, Label.watcher] SampleData.zero
    "open key: no such file" (by decide) (by decide) (by unfold NoWorkerMove; decide)
    (by unfold NoWorkerMove; decide)
  ⟨h.1, h.2.1.trans (by decide)⟩

/-- C9 (a successful iteration of the generator).  Take any reachable state in which the
worker is about to call `models.NewSampleData` and that call succeeds with `data`.  With
`b` the bytes `json.Marshal(data)`, whatever the other goroutines do in between, the
worker's next moves are: `sdk.Create(context.Background(), b)` once, then the send of the
same `b` on `chPublish` once (completed by the consumer, who receives exactly `b`), then
`time.Sleep` of one second, and it is back at the head of its loop.  Nothing that
`sdk.Create` does or returns enters into the send. -/
theorem successful_iteration (env : Env) (pre a b c d e : List Label) (data : SampleData)
    (hpc : (exec env pre Sys.init).wpc = WorkerPc.generate)
    (hgen : env.newSampleData (exec env pre Sys.init).iter = GoResult.returned (data, none))
    (ha : NoWorkerMove a) (hb : NoWorkerMove b) (hc : NoWorkerMove c) (hd : NoWorkerMove d)
    (he : NoWorkerMove e) :
    (exec env (pre ++ a ++ [Label.worker] ++ b ++ [Label.worker] ++ c ++ [Label.worker] ++ d ++
          [Label.receive] ++ e ++ [Label.worker]) Sys.init).wpc = WorkerPc.loopHead ∧
      (exec env (pre ++ a ++ [Label.worker] ++ b ++ [Label.worker] ++ c ++ [Label.worker] ++ d ++
          [Label.receive] ++ e ++ [Label.worker]) Sys.init).eventsOf Task.worker =
        (exec env pre Sys.init).eventsOf Task.worker ++
          [Event.sdkCreate (env.jsonMarshal data), Event.send (env.jsonMarshal data),
            Event.sleep 1000000000] ∧
      (exec env (pre ++ a ++ [Label.worker] ++ b ++ [Label.worker] ++ c ++ [Label.worker] ++ d ++
          [Label.receive] ++ e ++ [Label.worker]) Sys.init).received =
        env.jsonMarshal data :: (exec env pre Sys.init).received ∧
      (exec env (pre ++ a ++ [Label.worker] ++ b ++ [Label.worker] ++ c ++ [Label.worker] ++ d ++
          [Label.receive] ++ e ++ [Label.worker]) Sys.init).iter =
        (exec env pre Sys.init).iter + 1 := by
  have v0 := reachable_view env pre (by rw [hpc]; exact fun h => WorkerPc.noConfusion h)
  rw [hpc] at v0
  have v1 := view_after_stretch env pre a _ v0 (fun h => WorkerPc.noConfusion h) ha
  have v2 := worker_generate_ok env _ _ _ _ _ data v1 hgen
  rw [← exec_snoc] at v2
  have v3 := view_after_stretch env _ b _ v2 (fun h => WorkerPc.noConfusion h) hb
  have v4 := worker_marshal env _ _ _ _ _ data v3
  rw [← exec_snoc] at v4
  have v5 := view_after_stretch env _ c _ v4 (fun h => WorkerPc.noConfusion h) hc
  have v6 := worker_create env _ _ _ _ _ _ v5
  rw [← exec_snoc] at v6
  have v7 := view_after_stretch env _ d _ v6 (fun h => WorkerPc.noConfusion h) hd
  have v8 := worker_send_received env _ _ _ _ _ v7
  rw [← exec_snoc] at v8
  have v9 := view_after_stretch env _ e _ v8 (fun h => WorkerPc.noConfusion h) he
  have v10 := worker_sleep env _ _ _ _ _ v9
  rw [← exec_snoc] at v10
  simp only [workerView, Prod.mk.injEq] at v10
  obtain ⟨h1, h2, h3, h4, -, -⟩ := v10
  refine ⟨h1, ?_, h4, h2⟩
  unfold Sys.eventsOf
  rw [h3]
  simp

/-- Witness for C9: the first call of `NewSampleData` under `demoEnv` succeeds; the payload
`[0]` is annotated, sent and received. -/
theorem successful_iteration_witness :
    (exec demoEnv
        ([Label.main, Label.main, Label.main, Label.main, Label.main, Label.main, Label.main,
            Label.worker] ++
          [Label.listener] ++ [Label.worker] ++ [] ++ [Label.worker] ++ [] ++ [Label.worker] ++
          [Label.outsideCancel] ++ [Label.receive] ++ [Label.watcher] ++ [Label.worker])
        Sys.init).eventsOf Task.worker =
      [Event.sdkCreate [0], Event.send [0], Event.sleep 1000000000] ∧
    (exec demoEnv
        ([Label.main, Label.main, Label.main, Label.main, Label.main, Label.main, Label.main,
            Label.worker] ++
          [Label.listener] ++ [Label.worker] ++ [] ++ [Label.worker] ++ [] ++ [Label.worker] ++
          [Label.outsideCancel] ++ [Label.receive] ++ [Label.watcher] ++ [Label.worker])
        Sys.init).received = [[0]] :=
  have h := successful_iteration demoEnv
    [Label.main, Label.main, Label.main, Label.main, Label.main, Label.main, Label.main,
      Label.worker]
    [Label.listener] [] [] [Label.outsideCancel] [Label.watcher]
    { Description := [100], Seed := [0], Signature := [] }
    (by decide) (by decide) (by unfold NoWorkerMove; decide) (by unfold NoWorkerMove; decide)
    (by unfold NoWorkerMove; decide) (by unfold NoWorkerMove; decide)
    (by unfold NoWorkerMove; decide)
  ⟨h.2.1.trans (by decide), h.2.2.1.trans (by decide)⟩

end Pipeline

namespace Pipeline
open Models

/-! ### After the stop flag is set -/

/-- The relation the budget argument maintains from one state to the next. -/
theorem budget_main (s t : Sys) (hs : stepMain s = some t) (hc : s.cancelled = true) :
    t.cancelled = true ∧ t.iter + callBudget t.wpc ≤ s.iter + callBudget s.wpc ∧
      t.received.length + sendBudget t.wpc ≤ s.received.length + sendBudget s.wpc := by
  unfold stepMain at hs
  split at hs <;> (try split at hs) <;> simp only [Option.some.injEq, reduceCtorEq] at hs <;>
    subst hs <;> simp [Sys.emit, hc, callBudget, sendBudget]

theorem budget_worker (env : Env) (s t : Sys) (hs : stepWorker env s = some t)
    (hc : s.cancelled = true) :
    t.cancelled = true ∧ t.iter + callBudget t.wpc ≤ s.iter + callBudget s.wpc ∧
      t.received.length + sendBudget t.wpc ≤ s.received.length + sendBudget s.wpc := by
  unfold stepWorker at hs
  split at hs <;> (try split at hs) <;> simp only [Option.some.injEq, reduceCtorEq] at hs <;>
    subst hs <;> simp_all [Sys.emit, callBudget, sendBudget]

theorem budget_receive (s t : Sys) (hs : stepReceive s = some t) (hc : s.cancelled = true) :
    t.cancelled = true ∧ t.iter + callBudget t.wpc ≤ s.iter + callBudget s.wpc ∧
      t.received.length + sendBudget t.wpc ≤ s.received.length + sendBudget s.wpc := by
  unfold stepReceive at hs
  split at hs <;> (try split at hs) <;> simp only [Option.some.injEq, reduceCtorEq] at hs <;>
    subst hs <;> simp_all [Sys.emit, callBudget, sendBudget]

theorem budget_listener (s t : Sys) (hs : stepListener s = some t) (hc : s.cancelled = true) :
    t.cancelled = true ∧ t.iter + callBudget t.wpc ≤ s.iter + callBudget s.wpc ∧
      t.received.length + sendBudget t.wpc ≤ s.received.length + sendBudget s.wpc := by
  unfold stepListener at hs
  split at hs <;> (try split at hs) <;> simp only [Option.some.injEq, reduceCtorEq] at hs <;>
    subst hs <;> simp [Sys.emit, hc]

theorem budget_watcher (s t : Sys) (hs : stepWatcher s = some t) (hc : s.cancelled = true) :
    t.cancelled = true ∧ t.iter + callBudget t.wpc ≤ s.iter + callBudget s.wpc ∧
      t.received.length + sendBudget t.wpc ≤ s.received.length + sendBudget s.wpc := by
  unfold stepWatcher at hs
  split at hs <;> (try split at hs) <;> simp only [Option.some.injEq, reduceCtorEq] at hs <;>
    subst hs <;> simp [Sys.emit, hc]

theorem budget_signal (s t : Sys) (hs : stepSignal s = some t) (hc : s.cancelled = true) :
    t.cancelled = true ∧ t.iter + callBudget t.wpc ≤ s.iter + callBudget s.wpc ∧
      t.received.length + sendBudget t.wpc ≤ s.received.length + sendBudget s.wpc := by
  unfold stepSignal at hs
  split at hs <;> simp only [Option.some.injEq, reduceCtorEq] at hs <;>
    subst hs <;> simp [Sys.emit, hc]

theorem budget_outside (s t : Sys) (hs : stepOutsideCancel s = some t)
    (hc : s.cancelled = true) :
    t.cancelled = true ∧ t.iter + callBudget t.wpc ≤ s.iter + callBudget s.wpc ∧
      t.received.length + sendBudget t.wpc ≤ s.received.length + sendBudget s.wpc := by
  unfold stepOutsideCancel at hs
  simp only [Option.some.injEq] at hs
  subst hs
  simp [Sys.emit, hc]

theorem budget_next (env : Env) (s : Sys) (l : Label) :
    s.cancelled = true →
      (next env s l).cancelled = true ∧
        (next env s l).iter + callBudget (next env s l).wpc ≤ s.iter + callBudget s.wpc ∧
        (next env s l).received.length + sendBudget (next env s l).wpc ≤
          s.received.length + sendBudget s.wpc :=
  next_rel env
    (fun s t => s.cancelled = true →
      t.cancelled = true ∧ t.iter + callBudget t.wpc ≤ s.iter + callBudget s.wpc ∧
        t.received.length + sendBudget t.wpc ≤ s.received.length + sendBudget s.wpc)
    (fun _ h => ⟨h, le_refl _, le_refl _⟩) budget_main budget_listener
    (fun s t _ => budget_worker env s t) budget_watcher budget_signal budget_receive
    budget_outside s l

/-- Once the flag is set it stays set, and under any schedule the worker makes at most the
calls of `NewSampleData` and the sends its budget allows. -/
theorem budget_exec (env : Env) :
    ∀ (more : List Label) (s : Sys), s.cancelled = true →
      (exec env more s).cancelled = true ∧
        (exec env more s).iter + callBudget (exec env more s).wpc ≤ s.iter + callBudget s.wpc ∧
        (exec env more s).received.length + sendBudget (exec env more s).wpc ≤
          s.received.length + sendBudget s.wpc := by
  intro more
  induction more with
  | nil => intro s h; exact ⟨h, le_refl _, le_refl _⟩
  | cons l ls ih =>
    intro s h
    obtain ⟨h1, h2, h3⟩ := budget_next env s l h
    obtain ⟨g1, g2, g3⟩ := ih (next env s l) h1
    exact ⟨g1, le_trans g2 h2, le_trans g3 h3⟩

theorem callBudget_le_one (pc : WorkerPc) : callBudget pc ≤ 1 := by
  cases pc <;> simp [callBudget]

theorem sendBudget_le_one (pc : WorkerPc) : sendBudget pc ≤ 1 := by
  cases pc <;> simp [sendBudget]

/-- A worker waiting in its send moves only when the consumer receives. -/
theorem send_blocked_next (env : Env) (s : Sys) (l : Label) (b : Bytes) (lk : Links s)
    (hw : s.wpc = WorkerPc.send b) (hl : l ≠ Label.receive) :
    (next env s l).wpc = WorkerPc.send b := by
  by_cases hlw : l = Label.worker
  · subst hlw
    have hcl : s.publishClosed = false := by rw [lk.closed, hw]; rfl
    unfold next step
    by_cases hc : s.crashed = true
    · simp [hc, hw]
    · simp [hc, stepWorker, hw, hcl]
  · have hv := workerView_next env s l lk (by rw [hw]; exact fun h => WorkerPc.noConfusion h)
      hlw hl
    have : (next env s l).wpc = s.wpc := congrArg Prod.fst hv
    rw [this, hw]

theorem send_blocked_exec (env : Env) (b : Bytes) :
    ∀ (more : List Label) (s : Sys), Links s → s.wpc = WorkerPc.send b →
      Label.receive ∉ more → (exec env more s).wpc = WorkerPc.send b := by
  intro more
  induction more with
  | nil => intro s _ hw _; exact hw
  | cons l ls ih =>
    intro s lk hw hno
    have hl : l ≠ Label.receive := fun h => hno (by simp [h])
    exact ih (next env s l) (links_next env s l lk) (send_blocked_next env s l b lk hw hl)
      (fun h => hno (List.mem_cons_of_mem l h))

end Pipeline

namespace Pipeline
open Models

set_option maxHeartbeats 1000000 in
theorem drain_worker_move (env : Env) (s : Sys) (h : Draining s) :
    Draining (next env s Label.worker) ∧
      workerRemaining (next env s Label.worker).wpc ≤ workerRemaining s.wpc ∧
      ((∀ b, s.wpc ≠ WorkerPc.send b) →
        workerRemaining (next env s Label.worker).wpc ≤ workerRemaining s.wpc - 1) ∧
      (NoPanic env s → NoPanic env (next env s Label.worker)) := by
  obtain ⟨h1, h2, h3, h4⟩ := h
  unfold Draining NoPanic next step
  by_cases hc : s.crashed = true
  · have hw := h3 hc
    simp [hc, hw, h1, h4, workerRemaining]
  · have hc2 : s.crashed = false := by simpa using hc
    cases hw : s.wpc with
    | generate =>
      rcases hg : env.newSampleData s.iter with ⟨d, _ | err⟩ | msg <;>
        simp [hc2, stepWorker, hw, h1, hg, workerRemaining, workerClosed, Sys.emit] at h4 ⊢ <;>
        simp [h4]
    | notStarted => exact absurd hw h2
    | send b =>
      have h5 : s.publishClosed = false := by rw [h4, hw]; rfl
      simp [hc2, stepWorker, hw, h1, h5, workerRemaining, workerClosed]
    | _ =>
      simp [hc2, stepWorker, hw, h1, workerRemaining, workerClosed, Sys.emit] at h4 ⊢ <;>
        simp [h4]

set_option maxHeartbeats 1000000 in
theorem drain_receive_move (env : Env) (s : Sys) (h : Draining s) :
    Draining (next env s Label.receive) ∧
      workerRemaining (next env s Label.receive).wpc ≤ workerRemaining s.wpc ∧
      ((∃ b, s.wpc = WorkerPc.send b) →
        workerRemaining (next env s Label.receive).wpc ≤ workerRemaining s.wpc - 1) ∧
      (NoPanic env s → NoPanic env (next env s Label.receive)) := by
  obtain ⟨h1, h2, h3, h4⟩ := h
  unfold Draining NoPanic next step
  by_cases hc : s.crashed = true
  · have hw := h3 hc
    simp [hc, hw, h1, h4, workerRemaining]
  · have hc2 : s.crashed = false := by simpa using hc
    cases hw : s.wpc with
    | notStarted => exact absurd hw h2
    | _ =>
      simp [hc2, stepReceive, hw, h1, workerRemaining, workerClosed, Sys.emit] at h4 ⊢ <;>
        simp [h4]


theorem workerRemaining_le (pc : WorkerPc) : workerRemaining pc ≤ 9 := by
  cases pc <;> simp [workerRemaining]

theorem gone_of_remaining_zero (pc : WorkerPc) (h : workerRemaining pc = 0) :
    pc = WorkerPc.exited ∨ pc = WorkerPc.crashed := by
  cases pc <;> simp [workerRemaining] at h ⊢

/-- One round brings the worker at least one move nearer to its end. -/
theorem drain_round (env : Env) (s : Sys) (h : Draining s) :
    Draining (drainRound env s) ∧
      workerRemaining (drainRound env s).wpc ≤ workerRemaining s.wpc - 1 ∧
      (NoPanic env s → NoPanic env (drainRound env s)) := by
  obtain ⟨w1, w2, w3, w4⟩ := drain_worker_move env s h
  obtain ⟨r1, r2, r3, r4⟩ := drain_receive_move env (next env s Label.worker) w1
  refine ⟨r1, ?_, fun q => r4 (w4 q)⟩
  unfold drainRound
  by_cases hsend : ∃ b, s.wpc = WorkerPc.send b
  · obtain ⟨b, hb⟩ := hsend
    have hsame : (next env s Label.worker).wpc = WorkerPc.send b := by
      have hcl : s.publishClosed = false := by rw [h.2.2.2, hb]; rfl
      unfold next step
      by_cases hc : s.crashed = true
      · simp [hc, hb]
      · simp [hc, stepWorker, hb, hcl]
    have := r3 ⟨b, hsame⟩
    rw [hsame] at this
    rw [hb]
    exact this
  · have hns : ∀ b, s.wpc ≠ WorkerPc.send b := fun b hb => hsend ⟨b, hb⟩
    exact le_trans r2 (w3 hns)

theorem exec_drainSchedule (env : Env) (s : Sys) :
    exec env drainSchedule s =
      drainRound env (drainRound env (drainRound env (drainRound env (drainRound env
        (drainRound env (drainRound env (drainRound env (drainRound env s)))))))) := rfl

/-- With the flag set and a consumer that receives, the worker has finished after the nine
rounds of `drainSchedule`; unless `NewSampleData` panics it has done so by closing
`chPublish` and returning. -/
theorem drain_finishes (env : Env) (s : Sys) (h : Draining s) :
    (exec env drainSchedule s).wpc.gone = true ∧
      (NoPanic env s →
        (exec env drainSchedule s).wpc = WorkerPc.exited ∧
          (exec env drainSchedule s).publishClosed = true) := by
  rw [exec_drainSchedule]
  obtain ⟨d1, m1, q1⟩ := drain_round env s h
  obtain ⟨d2, m2, q2⟩ := drain_round env _ d1
  obtain ⟨d3, m3, q3⟩ := drain_round env _ d2
  obtain ⟨d4, m4, q4⟩ := drain_round env _ d3
  obtain ⟨d5, m5, q5⟩ := drain_round env _ d4
  obtain ⟨d6, m6, q6⟩ := drain_round env _ d5
  obtain ⟨d7, m7, q7⟩ := drain_round env _ d6
  obtain ⟨d8, m8, q8⟩ := drain_round env _ d7
  obtain ⟨d9, m9, q9⟩ := drain_round env _ d8
  have hle := workerRemaining_le s.wpc
  have hzero : workerRemaining
      (drainRound env (drainRound env (drainRound env (drainRound env (drainRound env
        (drainRound env (drainRound env (drainRound env
          (drainRound env s))))))))).wpc = 0 := by
    omega
  have hgone := gone_of_remaining_zero _ hzero
  constructor
  · rcases hgone with hg | hg <;> rw [hg] <;> rfl
  · intro hq
    have q := q9 (q8 (q7 (q6 (q5 (q4 (q3 (q2 (q1 hq))))))))
    rcases hgone with hg | hg
    · refine ⟨hg, ?_⟩
      rw [d9.2.2.2, hg]
      rfl
    · exact absurd hg q.2.1

end Pipeline

namespace Pipeline
open Models

/-- A reachable state in which the stop flag is set satisfies `Draining`. -/
theorem draining_of_flag (env : Env) (sched : List Label)
    (hflag : (exec env sched Sys.init).cancelled = true) :
    Draining (exec env sched Sys.init) := by
  have lk := links_exec env sched
  refine ⟨hflag, ?_, lk.crashed.mp, lk.closed⟩
  intro hw
  have h3 := lk.cancelled.mp hflag
  have h5 : mainIndex (exec env sched Sys.init).mpc ≤ 3 := lk.worker.mp hw
  have hh : (exec env sched Sys.init).hpc = WatcherPc.notStarted := lk.watcher.mpr (by omega)
  rw [hh] at h3
  simp [watcherIndex] at h3

/-- Except in its send, a started worker that has not finished can always move. -/
theorem worker_can_move (env : Env) (s : Sys) (hcr : s.crashed = false)
    (hst : s.wpc ≠ WorkerPc.notStarted) (hg : s.wpc.gone = false)
    (hns : ∀ b, s.wpc ≠ WorkerPc.send b) : (step env Label.worker s).isSome = true := by
  unfold step
  cases hw : s.wpc with
  | notStarted => exact absurd hw hst
  | send b => exact absurd hw (hns b)
  | generate =>
    rcases hgen : env.newSampleData s.iter with ⟨d, _ | err⟩ | msg <;>
      simp [hcr, stepWorker, hw, hgen]
  | exited => simp [hw, WorkerPc.gone] at hg
  | crashed => simp [hw, WorkerPc.gone] at hg
  | loopHead => cases hcan : s.cancelled <;> simp [hcr, stepWorker, hw, hcan]
  | close => cases hcl : s.publishClosed <;> simp [hcr, stepWorker, hw, hcl]
  | _ => simp [hcr, stepWorker, hw]

/-- In its send on the open channel the worker cannot move by itself; a receive by the
consumer completes the send. -/
theorem worker_in_send (env : Env) (s : Sys) (b : Bytes) (hcr : s.crashed = false)
    (hcl : s.publishClosed = false) (hw : s.wpc = WorkerPc.send b) :
    step env Label.worker s = none ∧ (step env Label.receive s).isSome = true := by
  simp [step, stepWorker, stepReceive, hcr, hcl, hw]

/-- C7, counterexample.  (1) A reachable state in which a signal has made the listener
cancel the context, the watcher has set the stop flag and exited, and the worker is in its send on `chPublish`:
the worker has no move of its own there, and with a consumer that does not receive it stays
in that send under every schedule, so it never closes the channel nor releases its ticket.
(2) Cancelling the context does not by itself stop the worker within one iteration: while
the watcher has not run after the cancel, the worker goes through three more calls of `NewSampleData` and
two more sends. -/
theorem worker_blocked_in_send_after_cancel :
    ((exec demoEnv blockedSchedule Sys.init).ctxDone = true ∧
        (exec demoEnv blockedSchedule Sys.init).cancelled = true ∧
        (exec demoEnv blockedSchedule Sys.init).hpc = WatcherPc.exited ∧
        (exec demoEnv blockedSchedule Sys.init).crashed = false ∧
        (exec demoEnv blockedSchedule Sys.init).wpc = WorkerPc.send [0] ∧
        step demoEnv Label.worker (exec demoEnv blockedSchedule Sys.init) = none ∧
        ∀ more : List Label, Label.receive ∉ more →
          (exec demoEnv more (exec demoEnv blockedSchedule Sys.init)).wpc =
            WorkerPc.send [0]) ∧
      ((exec demoEnv signalSchedule Sys.init).ctxDone = true ∧
        (exec demoEnv signalSchedule Sys.init).iter = 0 ∧
        (exec demoEnv lateFlagSchedule Sys.init).cancelled = false ∧
        (exec demoEnv lateFlagSchedule Sys.init).iter = 3 ∧
        (exec demoEnv lateFlagSchedule Sys.init).received = [[2], [0]]) := by
  refine ⟨⟨by decide, by decide, by decide, by decide, by decide, ?_, ?_⟩,
    ⟨by decide, by decide, by decide, by decide, by decide⟩⟩
  · exact (worker_in_send demoEnv _ [0] (by decide) (by decide) (by decide)).1
  · intro more hmore
    exact send_blocked_exec demoEnv [0] more _ (links_exec demoEnv blockedSchedule) (by decide)
      hmore

/-- C7, as amended.  Take any reachable state in which the watcher has set the stop flag.
(1) Under every schedule from there the flag stays set, the worker makes at most one more
call of `NewSampleData` and the consumer receives at most one more payload: the worker
finishes the iteration it is in and starts no other.
(2) If the consumer receives, the worker has finished after the nine rounds of
`drainSchedule`; unless `NewSampleData` panics it has closed `chPublish` and returned, with
the deferred `wg.Done()` as its last event, performed once.
(3) A worker that has not finished can always move, except in its send on `chPublish`:
there it has no move of its own, a receive by the consumer is what completes the send, and
as long as the consumer does not receive the worker stays in the send. -/
theorem worker_convergence_after_flag (env : Env) (pre : List Label)
    (hflag : (exec env pre Sys.init).cancelled = true) :
    (∀ more : List Label,
        (exec env (pre ++ more) Sys.init).cancelled = true ∧
          (exec env (pre ++ more) Sys.init).iter ≤ (exec env pre Sys.init).iter + 1 ∧
          (exec env (pre ++ more) Sys.init).received.length ≤
            (exec env pre Sys.init).received.length + 1) ∧
      ((exec env (pre ++ drainSchedule) Sys.init).wpc.gone = true ∧
        (NoPanic env (exec env pre Sys.init) →
          (exec env (pre ++ drainSchedule) Sys.init).wpc = WorkerPc.exited ∧
            (exec env (pre ++ drainSchedule) Sys.init).publishClosed = true ∧
            releasedLast ((exec env (pre ++ drainSchedule) Sys.init).eventsOf Task.worker))) ∧
      (∀ more : List Label,
        (exec env (pre ++ more) Sys.init).crashed = false →
        (exec env (pre ++ more) Sys.init).wpc.gone = false →
        ((∀ b, (exec env (pre ++ more) Sys.init).wpc ≠ WorkerPc.send b) →
            (step env Label.worker (exec env (pre ++ more) Sys.init)).isSome = true) ∧
          ∀ b, (exec env (pre ++ more) Sys.init).wpc = WorkerPc.send b →
            step env Label.worker (exec env (pre ++ more) Sys.init) = none ∧
              (step env Label.receive (exec env (pre ++ more) Sys.init)).isSome = true ∧
              ∀ rest : List Label, Label.receive ∉ rest →
                (exec env (pre ++ more ++ rest) Sys.init).wpc = WorkerPc.send b) := by
  have hbud : ∀ more : List Label,
      (exec env (pre ++ more) Sys.init).cancelled = true ∧
        (exec env (pre ++ more) Sys.init).iter ≤ (exec env pre Sys.init).iter + 1 ∧
        (exec env (pre ++ more) Sys.init).received.length ≤
          (exec env pre Sys.init).received.length + 1 := by
    intro more
    rw [exec_append]
    obtain ⟨h1, h2, h3⟩ := budget_exec env more _ hflag
    have c1 := callBudget_le_one (exec env pre Sys.init).wpc
    have c2 := sendBudget_le_one (exec env pre Sys.init).wpc
    exact ⟨h1, by omega, by omega⟩
  refine ⟨hbud, ?_, ?_⟩
  · have hd := drain_finishes env _ (draining_of_flag env pre hflag)
    rw [← exec_append] at hd
    refine ⟨hd.1, fun hq => ⟨(hd.2 hq).1, (hd.2 hq).2, ?_⟩⟩
    obtain ⟨p, hshape, hp⟩ := worker_shape env (pre ++ drainSchedule)
    rw [hshape]
    exact (workerTail_facts _ p hp).1 hd.1
  · intro more hcr hg
    have hdr := draining_of_flag env (pre ++ more) (hbud more).1
    refine ⟨fun hns => worker_can_move env _ hcr hdr.2.1 hg hns, fun b hb => ?_⟩
    have hcl : (exec env (pre ++ more) Sys.init).publishClosed = false := by
      rw [hdr.2.2.2, hb]; rfl
    have hin := worker_in_send env _ b hcr hcl hb
    refine ⟨hin.1, hin.2, fun rest hrest => ?_⟩
    rw [exec_append]
    exact send_blocked_exec env b rest _ (links_exec env (pre ++ more)) hb hrest

/-- Witness for C7 as amended: from the state of the counterexample (flag set, worker in its
send), once the consumer receives the worker closes `chPublish` and exits. -/
theorem worker_convergence_after_flag_witness :
    (exec demoEnv blockedSchedule Sys.init).cancelled = true ∧
      (exec demoEnv (blockedSchedule ++ drainSchedule) Sys.init).wpc = WorkerPc.exited ∧
      (exec demoEnv (blockedSchedule ++ drainSchedule) Sys.init).publishClosed = true ∧
      releasedLast
        ((exec demoEnv (blockedSchedule ++ drainSchedule) Sys.init).eventsOf Task.worker) :=
  have hflag : (exec demoEnv blockedSchedule Sys.init).cancelled = true := by decide
  have hw : (exec demoEnv blockedSchedule Sys.init).wpc = WorkerPc.send [0] := by decide
  have hq : NoPanic demoEnv (exec demoEnv blockedSchedule Sys.init) := by
    unfold NoPanic
    rw [hw]
    exact ⟨fun _ h => WorkerPc.noConfusion h, fun h => WorkerPc.noConfusion h,
      fun h => WorkerPc.noConfusion h⟩
  ⟨hflag, (worker_convergence_after_flag demoEnv blockedSchedule hflag).2.1.2 hq⟩

end Pipeline

namespace Pipeline

open Models

/-! ### The runner among the goroutines -/

/-- With only the worker left, in its send, no move other than a receive by the consumer
changes that. -/
theorem workerLeftInSend_next (env : Env) (s : Sys) (l : Label) (hl : l ≠ Label.receive)
    (h : WorkerLeftInSend s) : WorkerLeftInSend (next env s l) := by
  obtain ⟨hm, hlp, hh, ⟨b, hw⟩, hp, hwg, hc⟩ := h
  cases l
  case receive => exact absurd rfl hl
  all_goals
    simp [WorkerLeftInSend, next, step, stepMain, stepListener, stepWorker, stepWatcher,
      stepSignal, stepOutsideCancel, Sys.emit, hm, hlp, hh, hw, hp, hwg, hc]

theorem workerLeftInSend_exec (env : Env) :
    ∀ (sched : List Label) (s : Sys), Label.receive ∉ sched → WorkerLeftInSend s →
      WorkerLeftInSend (exec env sched s) := by
  intro sched
  induction sched with
  | nil => intro s _ h; exact h
  | cons l ls ih =>
    intro s hno h
    exact ih (next env s l) (fun hmem => hno (List.mem_cons_of_mem l hmem))
      (workerLeftInSend_next env s l (fun hl => hno (by simp [hl])) h)

/-- When a handler after that of `CreateLoop` fails, the runner cancels the context and goes
on to `wg.Wait()`.  If the worker has meanwhile reached its send and the consumer never
receives, the worker never calls `wg.Done()`, and neither `wg.Wait()` nor `Run` returns,
whatever else happens. -/
theorem Run_blocked_after_failed_start (sched : List Label) (hno : Label.receive ∉ sched) :
    Bootstrap.Run sysRuntime (sysWait demoEnv (workerLeftSchedule ++ sched)) () sysCancel ()
      [createLoopHandler, failingHandler] Sys.init = none := by
  have h0 : WorkerLeftInSend (exec demoEnv workerLeftSchedule
      { (Bootstrap.initWaitGroup sysRuntime () sysCancel () [createLoopHandler, failingHandler]
          Sys.init).2.world with mpc := MainPc.wait }) :=
    ⟨rfl, rfl, rfl, ⟨[0], rfl⟩, rfl, rfl, rfl⟩
  have h1 := workerLeftInSend_exec demoEnv sched _ hno h0
  rw [← exec_append] at h1
  obtain ⟨hm, -, -, -, -, hwg, hc⟩ := h1
  have hwait : sysWait demoEnv (workerLeftSchedule ++ sched) ()
      (Bootstrap.initWaitGroup sysRuntime () sysCancel () [createLoopHandler, failingHandler]
        Sys.init).2.world = none := by
    simp only [sysWait, step, hc, stepMain, hm, hwg]
    simp
  rw [Bootstrap.Run_eq_map, hwait]
  rfl

/-- C1, counterexample.  The first of two handlers returns false, so index 0 is the first
failure.  Between its return and the runner's `cancel()` on `bootstrap.go:54` the listener
registers for signals, a signal arrives, and the listener calls `cancel()` on line 79; the
runner then calls it on line 54.  The shared cancel function has been invoked twice, first
by the listener and then by the calling goroutine, while the runner's own record holds one
call of it and the second handler has not been invoked (the worker was never started). -/
theorem cancel_invoked_by_listener_and_runner :
    Bootstrap.FirstFailure () () [withMoves demoEnv signalDuringStartup failingHandler,
        createLoopHandler] (Bootstrap.translateInterruptToCancel sysRuntime () () Sys.init) 0 ∧
      (Bootstrap.initWaitGroup sysRuntime () sysCancel ()
        [withMoves demoEnv signalDuringStartup failingHandler, createLoopHandler]
        Sys.init).2.world.cancelCallers = [Task.listener, Task.main] ∧
      (Bootstrap.initWaitGroup sysRuntime () sysCancel ()
        [withMoves demoEnv signalDuringStartup failingHandler, createLoopHandler]
        Sys.init).2.world.eventsOf Task.listener =
          [Event.signalNotify, Event.recvSignal, Event.cancel] ∧
      (Bootstrap.initWaitGroup sysRuntime () sysCancel ()
        [withMoves demoEnv signalDuringStartup failingHandler, createLoopHandler]
        Sys.init).2.world.eventsOf Task.main =
          [Event.wgAdd 1, Event.go Task.listener, Event.handlerReturn false, Event.cancel] ∧
      Bootstrap.cancelCount (Bootstrap.initWaitGroup sysRuntime () sysCancel ()
        [withMoves demoEnv signalDuringStartup failingHandler, createLoopHandler]
        Sys.init).2.calls = 1 ∧
      (Bootstrap.initWaitGroup sysRuntime () sysCancel ()
        [withMoves demoEnv signalDuringStartup failingHandler, createLoopHandler]
        Sys.init).2.world.wpc = WorkerPc.notStarted :=
  ⟨⟨by decide, rfl, fun j hj => absurd hj (Nat.not_lt_zero j)⟩, rfl, rfl, rfl, rfl, rfl⟩

/-- C3, counterexample.  A bootstrap whose only handler fails and one whose only handler is
that of `CreateLoop` give different `startedSuccessfully` flags inside `initWaitGroup`.  In
the first the listener finds the context done and exits; in the second a signal arrives and
listener, watcher and worker exit.  `wg.Wait()` returns in both, and `Run` hands its caller
the same value, `()`; after the failed start the calling goroutine has done nothing but
`wg.Add(1)`, `go`, the failing handler, `cancel()` and `wg.Wait()`. -/
theorem Run_discards_startedSuccessfully :
    (Bootstrap.initWaitGroup sysRuntime () sysCancel () [failingHandler] Sys.init).1.2 = false ∧
      (Bootstrap.initWaitGroup sysRuntime () sysCancel () [createLoopHandler] Sys.init).1.2 =
        true ∧
      (Bootstrap.Run sysRuntime (sysWait demoEnv listenerExitSchedule) () sysCancel ()
        [failingHandler] Sys.init).map Prod.fst = some () ∧
      (Bootstrap.Run sysRuntime (sysWait demoEnv shutdownAfterStart) () sysCancel ()
        [createLoopHandler] Sys.init).map Prod.fst = some () ∧
      (Bootstrap.Run sysRuntime (sysWait demoEnv listenerExitSchedule) () sysCancel ()
        [failingHandler] Sys.init).map (fun r => r.2.world.eventsOf Task.main) =
          some [Event.wgAdd 1, Event.go Task.listener, Event.handlerReturn false, Event.cancel,
            Event.wgWait] :=
  ⟨rfl, rfl, rfl, rfl, rfl⟩

end Pipeline
